import Mathlib

/-!
Verification development for `examples/stable_diffusion.py`: the model-tree /
checkpoint weight binder (source lines 510-519) and the layer-graph forward
wiring.  Tensor numerics, checkpoint deserialization and the path resolver
`get_child` live outside this file's repository snapshot; where they are
needed they are modelled from the specification, as documented on each
definition.
-/

namespace TinySD

/-- Element dtypes of checkpoint / parameter arrays (the ones relevant to the
binder: the loop casts every bound value with `v.astype(np.float32)`). -/
inductive Dtype where
  | float16
  | float32
  | float64
  | int64
deriving DecidableEq, Repr

/-- A numpy-style array as the binder sees it: a shape, a numeric payload and
a dtype.  The payload is kept abstract as a list of integers; the binder never
inspects it, it only moves it around. -/
structure NpArr where
  shape : List Nat
  data : List Int
  dtype : Dtype
deriving DecidableEq, Repr

/-- Modelled from the spec: `numpy.ndarray.astype` is external; per spec §8 the
cast is the only transformation applied during binding and contents are
otherwise preserved, so it is modelled as changing the dtype tag only. -/
def NpArr.astype (a : NpArr) (d : Dtype) : NpArr :=
  { a with dtype := d }

/-- One segment of a dotted path: an attribute/key identifier or a sequence
index (spec §4.1: "each segment either an identifier (attribute name) or a
non-negative integer (sequence index)"). -/
inductive Seg where
  | name (s : String)
  | idx (n : Nat)
deriving DecidableEq, Repr

/-- Split a character list on the dot delimiter (the path separator of
checkpoint keys such as `"encoder.down.0.block.1.conv1.weight"`). -/
def splitDot : List Char → List (List Char)
  | [] => [[]]
  | c :: rest =>
    if c = '.' then [] :: splitDot rest
    else
      match splitDot rest with
      | [] => [[c]]
      | g :: gs => (c :: g) :: gs

/-- Identifier grammar for a path segment: a letter or underscore followed by
letters, digits or underscores. -/
def identChars : List Char → Bool
  | [] => false
  | c :: cs => (c.isAlpha || c = '_') && cs.all (fun d => d.isAlphanum || d = '_')

/-- Numeral grammar for a path segment: one or more decimal digits. -/
def digitChars (cs : List Char) : Bool :=
  !cs.isEmpty && cs.all Char.isDigit

/-- Decimal value of a digit string. -/
def natOfDigits (cs : List Char) : Nat :=
  cs.foldl (fun n c => n * 10 + (c.toNat - 48)) 0

/-- Modelled from the spec: parse one segment against the segment grammar of
spec §4.1; a segment that is neither a numeral nor an identifier is malformed. -/
def segOfChars (cs : List Char) : Option Seg :=
  if digitChars cs then some (Seg.idx (natOfDigits cs))
  else if identChars cs then some (Seg.name (String.mk cs))
  else none

/-- Modelled from the spec: the path grammar of the resolver `get_child`
(`extra/utils.py`, outside this snapshot): a checkpoint key is dot-separated
segments, each an identifier or a non-negative integer (spec §4.1); a key
violating the grammar is rejected as malformed (spec §7). -/
def parsePath (k : String) : Option (List Seg) :=
  (splitDot k.data).mapM segOfChars

mutual

/-- The model tree (spec §3): a leaf holds one parameter array; a composite
node holds children addressed by name (object attribute / dict key) or by
sequence index. -/
inductive Node where
  | leaf (a : NpArr)
  | comp (cs : Children)

/-- Children of a composite node, in declaration order. -/
inductive Children where
  | nil
  | cons (s : Seg) (c : Node) (rest : Children)

end

/-- Build a children list from a plain list. -/
def Children.ofList : List (Seg × Node) → Children
  | [] => .nil
  | (s, c) :: rest => .cons s c (Children.ofList rest)

/-- Resolution failures of the path resolver (spec §4.1): a segment missing as
attribute/key/out-of-range index, or a segment applied to the wrong kind of
node.  Both are the recoverable "unbound key" outcomes that the loading loop
catches as `AttributeError`/`KeyError`/`IndexError` (source line 513). -/
inductive RErr where
  | notFound
  | wrongKind
deriving DecidableEq, Repr

mutual

/-- Modelled from the spec: the path resolver (`get_child`, spec §4.1):
navigate the parsed segments through the tree to the target leaf; fail with
"not found" when a segment is missing, with "wrong kind" when a segment
expects a composite but finds a leaf or vice versa.  Pure lookup, no side
effects. -/
def resolve : Node → List Seg → Except RErr NpArr
  | .leaf a, [] => .ok a
  | .leaf _, _ :: _ => .error RErr.wrongKind
  | .comp _, [] => .error RErr.wrongKind
  | .comp cs, s :: rest => resolveChildren cs s rest

/-- Resolve one segment against a children list (first matching child). -/
def resolveChildren : Children → Seg → List Seg → Except RErr NpArr
  | .nil, _, _ => .error RErr.notFound
  | .cons s' c cs, s, rest =>
    if s' = s then resolve c rest else resolveChildren cs s rest

end

mutual

/-- Write array `a` into the leaf addressed by the segment list (the
functional rendering of `w.assign(...)` on the resolved leaf, source line
519).  On a path that does not resolve to a leaf the tree is unchanged. -/
def update : Node → List Seg → NpArr → Node
  | .leaf _, [], a => .leaf a
  | .leaf b, _ :: _, _ => .leaf b
  | .comp cs, [], _ => .comp cs
  | .comp cs, s :: rest, a => .comp (updateChildren cs s rest a)

/-- Update inside the first child matching the segment. -/
def updateChildren : Children → Seg → List Seg → NpArr → Children
  | .nil, _, _, _ => .nil
  | .cons s' c cs, s, rest, a =>
    if s' = s then .cons s' (update c rest a) cs
    else .cons s' c (updateChildren cs s rest a)

end

mutual

/-- All parameter arrays stored at the leaves of a tree. -/
def allLeaves : Node → List NpArr
  | .leaf a => [a]
  | .comp cs => allLeavesChildren cs

/-- All parameter arrays stored under a children list. -/
def allLeavesChildren : Children → List NpArr
  | .nil => []
  | .cons _ c cs => allLeaves c ++ allLeavesChildren cs

end

/-- Fatal outcomes of the binding pass: a malformed key (spec §7, rejected by
the modelled resolver before navigation) or a shape mismatch (the uncaught
`assert w.shape == v.shape` of source line 518, recorded with the offending
key and both shapes in scope at the failing assertion). -/
inductive Fatal where
  | malformedPath (key : String)
  | shapeMismatch (key : String) (wshape vshape : List Nat)
deriving DecidableEq, Repr

/-- One line of user-visible output.  `perKey` is the per-entry print of
source line 516: the checkpoint tensor's shape, the resolved leaf or `none`,
and the key.  `summary` is the aggregate report described by spec §7 (bound
count, skipped count, first fatal error); it is declared here so that its
absence from the code's output can be stated. -/
inductive LogLine where
  | perKey (vshape : List Nat) (resolved : Option NpArr) (key : String)
  | summary (bound skipped : Nat) (fatal : Option Fatal)
deriving DecidableEq, Repr

/-- Whether a log line is an aggregate summary report. -/
def LogLine.isSummary : LogLine → Bool
  | .perKey _ _ _ => false
  | .summary _ _ _ => true

/-- Outcome of the binding pass: the final tree and the printed log, either
after completing all entries or stopped at the first fatal entry. -/
inductive BindOutcome where
  | ok (t : Node) (log : List LogLine)
  | fatal (f : Fatal) (t : Node) (log : List LogLine)

/-- The tree component of an outcome. -/
def BindOutcome.treeOf : BindOutcome → Node
  | .ok t _ => t
  | .fatal _ t _ => t

/-- The log component of an outcome. -/
def BindOutcome.logOf : BindOutcome → List LogLine
  | .ok _ log => log
  | .fatal _ _ log => log

/-- Prepend already-produced log lines to an outcome. -/
def BindOutcome.withLog (l : List LogLine) : BindOutcome → BindOutcome
  | .ok t log => .ok t (l ++ log)
  | .fatal f t log => .fatal f t (l ++ log)

/-- The weight-loading loop of source lines 510-519: for each checkpoint
entry `(k, v)` in iteration order, resolve `k` (`w = get_child(model, k)`,
with resolution failures caught and turned into a skip, `w = None`); print the
per-key line; if resolved, assert shape equality (a mismatch aborts the whole
pass) and assign `v.astype(np.float32)` into the leaf.  A malformed key is
rejected by the modelled resolver before navigation (spec §7). -/
def bindAll (t : Node) : List (String × NpArr) → BindOutcome
  | [] => .ok t []
  | (k, v) :: rest =>
    match parsePath k with
    | none => .fatal (.malformedPath k) t []
    | some p =>
      match resolve t p with
      | .error _ => (bindAll t rest).withLog [.perKey v.shape none k]
      | .ok w =>
        if w.shape = v.shape then
          (bindAll (update t p (v.astype .float32)) rest).withLog
            [.perKey v.shape (some w) k]
        else
          .fatal (.shapeMismatch k w.shape v.shape) t [.perKey v.shape (some w) k]

/-- Sequencing of binder outcomes: continue from the tree of a completed
prefix, short-circuit on a fatal prefix. -/
def BindOutcome.andThen (o : BindOutcome) (f : Node → BindOutcome) : BindOutcome :=
  match o with
  | .ok t l => (f t).withLog l
  | .fatal ft t l => .fatal ft t l

theorem withLog_nil (o : BindOutcome) : o.withLog [] = o := by
  cases o <;> simp [BindOutcome.withLog]

theorem withLog_withLog (l₁ l₂ : List LogLine) (o : BindOutcome) :
    (o.withLog l₂).withLog l₁ = o.withLog (l₁ ++ l₂) := by
  cases o <;> simp [BindOutcome.withLog]

theorem withLog_andThen (l : List LogLine) (o : BindOutcome) (f : Node → BindOutcome) :
    (o.withLog l).andThen f = (o.andThen f).withLog l := by
  cases o with
  | ok t log =>
    show (f t).withLog (l ++ log) = ((f t).withLog log).withLog l
    rw [withLog_withLog]
  | fatal ft t log => rfl

theorem withLog_ok_inv {l : List LogLine} {o : BindOutcome} {t : Node}
    {log : List LogLine} (h : o.withLog l = .ok t log) :
    ∃ log', o = .ok t log' ∧ log = l ++ log' := by
  cases o with
  | ok t' log' =>
    simp only [BindOutcome.withLog, BindOutcome.ok.injEq] at h
    exact ⟨log', by rw [h.1], h.2.symm⟩
  | fatal f t' log' => simp [BindOutcome.withLog] at h

theorem resolve_leaf_cons (a : NpArr) (s : Seg) (rest : List Seg) :
    resolve (.leaf a) (s :: rest) = .error RErr.wrongKind := rfl

theorem resolve_comp_nil (cs : Children) :
    resolve (.comp cs) [] = .error RErr.wrongKind := rfl

theorem resolve_comp_cons (cs : Children) (s : Seg) (rest : List Seg) :
    resolve (.comp cs) (s :: rest) = resolveChildren cs s rest := rfl

theorem resolveChildren_nil (s : Seg) (rest : List Seg) :
    resolveChildren .nil s rest = .error RErr.notFound := rfl

theorem resolveChildren_cons (s' : Seg) (c : Node) (cs : Children) (s : Seg)
    (rest : List Seg) :
    resolveChildren (.cons s' c cs) s rest =
      if s' = s then resolve c rest else resolveChildren cs s rest := rfl

theorem update_comp_cons (cs : Children) (s : Seg) (rest : List Seg) (a : NpArr) :
    update (.comp cs) (s :: rest) a = .comp (updateChildren cs s rest a) := rfl

theorem updateChildren_cons (s' : Seg) (c : Node) (cs : Children) (s : Seg)
    (rest : List Seg) (a : NpArr) :
    updateChildren (.cons s' c cs) s rest a =
      if s' = s then .cons s' (update c rest a) cs
      else .cons s' c (updateChildren cs s rest a) := rfl

mutual

/-- Store lemma: writing `a` at a resolvable path `q` makes `q` resolve to `a`
and leaves the result of resolving any other path unchanged. -/
theorem resolve_update (a : NpArr) (q : List Seg) (t : Node) (b : NpArr)
    (hb : resolve t q = .ok b) (p : List Seg) :
    resolve (update t q a) p = if p = q then .ok a else resolve t p := by
  cases q with
  | nil =>
    cases t with
    | leaf a' =>
      cases p with
      | nil => simp [resolve, update]
      | cons s₁ pr => simp [resolve, update]
    | comp cs => simp [resolve] at hb
  | cons s qr =>
    cases t with
    | leaf a' => simp [resolve] at hb
    | comp cs =>
      rw [resolve_comp_cons] at hb
      rw [update_comp_cons]
      cases p with
      | nil =>
        rw [resolve_comp_nil, resolve_comp_nil,
          if_neg (by intro h; exact List.noConfusion h)]
      | cons s₁ pr =>
        rw [resolve_comp_cons, resolve_comp_cons]
        exact resolveChildren_update a s qr cs b hb s₁ pr
termination_by (q.length, sizeOf t)

/-- Children version of the store lemma: update and lookup inside the first
matching child. -/
theorem resolveChildren_update (a : NpArr) (s : Seg) (qr : List Seg)
    (cs : Children) (b : NpArr) (hb : resolveChildren cs s qr = .ok b)
    (s₁ : Seg) (pr : List Seg) :
    resolveChildren (updateChildren cs s qr a) s₁ pr =
      if (s₁ :: pr : List Seg) = s :: qr then .ok a
      else resolveChildren cs s₁ pr := by
  cases cs with
  | nil => simp [resolveChildren] at hb
  | cons s' c cs' =>
    rw [resolveChildren_cons] at hb
    rw [updateChildren_cons]
    by_cases hss : s' = s
    · subst hss
      rw [if_pos rfl] at hb
      rw [if_pos rfl, resolveChildren_cons]
      by_cases hs1 : s' = s₁
      · subst hs1
        rw [if_pos rfl, resolve_update a qr c b hb pr,
          resolveChildren_cons s' c cs' s' pr, if_pos rfl]
        by_cases hpq : pr = qr
        · rw [if_pos hpq, if_pos (by rw [hpq])]
        · rw [if_neg hpq, if_neg (by intro h; injection h with h1 h2; exact hpq h2)]
      · rw [if_neg hs1,
          if_neg (by intro h; injection h with h1 h2; exact hs1 h1.symm),
          resolveChildren_cons s' c cs' s₁ pr, if_neg hs1]
    · rw [if_neg hss] at hb
      rw [if_neg hss, resolveChildren_cons]
      by_cases hs1 : s' = s₁
      · subst hs1
        rw [if_pos rfl,
          if_neg (by intro h; injection h with h1 h2; exact hss h1),
          resolveChildren_cons s' c cs' s' pr, if_pos rfl]
      · rw [if_neg hs1, resolveChildren_update a s qr cs' b hb s₁ pr,
          resolveChildren_cons s' c cs' s₁ pr, if_neg hs1]
termination_by (qr.length, sizeOf cs)

end

mutual

/-- Writing back the value a path already resolves to leaves the tree
unchanged. -/
theorem update_resolve_id (q : List Seg) (t : Node) (b : NpArr)
    (hb : resolve t q = .ok b) : update t q b = t := by
  cases q with
  | nil =>
    cases t with
    | leaf a' =>
      simp only [resolve, Except.ok.injEq] at hb
      rw [show update (Node.leaf a') [] b = Node.leaf b from rfl, hb]
    | comp cs => simp [resolve] at hb
  | cons s qr =>
    cases t with
    | leaf a' => simp [resolve] at hb
    | comp cs =>
      rw [resolve_comp_cons] at hb
      rw [update_comp_cons, updateChildren_resolve_id s qr cs b hb]
termination_by (q.length, sizeOf t)

/-- Children version of `update_resolve_id`. -/
theorem updateChildren_resolve_id (s : Seg) (qr : List Seg) (cs : Children)
    (b : NpArr) (hb : resolveChildren cs s qr = .ok b) :
    updateChildren cs s qr b = cs := by
  cases cs with
  | nil => simp [resolveChildren] at hb
  | cons s' c cs' =>
    rw [resolveChildren_cons] at hb
    rw [updateChildren_cons]
    by_cases hss : s' = s
    · rw [if_pos hss] at hb
      rw [if_pos hss, update_resolve_id qr c b hb]
    · rw [if_neg hss] at hb
      rw [if_neg hss, updateChildren_resolve_id s qr cs' b hb]
termination_by (qr.length, sizeOf cs)

end

theorem allLeaves_comp (cs : Children) :
    allLeaves (.comp cs) = allLeavesChildren cs := rfl

theorem allLeavesChildren_cons (s : Seg) (c : Node) (cs : Children) :
    allLeavesChildren (.cons s c cs) = allLeaves c ++ allLeavesChildren cs := rfl

mutual

/-- Every leaf of an updated tree is either the written array or a leaf of
the original tree. -/
theorem mem_allLeaves_update (q : List Seg) (t : Node) (a x : NpArr)
    (hx : x ∈ allLeaves (update t q a)) : x = a ∨ x ∈ allLeaves t := by
  cases q with
  | nil =>
    cases t with
    | leaf b =>
      simp only [update, allLeaves, List.mem_singleton] at hx
      exact Or.inl hx
    | comp cs => exact Or.inr (by simpa [update] using hx)
  | cons s qr =>
    cases t with
    | leaf b => exact Or.inr (by simpa [update] using hx)
    | comp cs =>
      rw [update_comp_cons, allLeaves_comp] at hx
      rw [allLeaves_comp]
      exact mem_allLeavesChildren_update s qr cs a x hx
termination_by (q.length, sizeOf t)

/-- Children version of `mem_allLeaves_update`. -/
theorem mem_allLeavesChildren_update (s : Seg) (qr : List Seg) (cs : Children)
    (a x : NpArr) (hx : x ∈ allLeavesChildren (updateChildren cs s qr a)) :
    x = a ∨ x ∈ allLeavesChildren cs := by
  cases cs with
  | nil => simp [updateChildren, allLeavesChildren] at hx
  | cons s' c cs' =>
    rw [updateChildren_cons] at hx
    rw [allLeavesChildren_cons]
    by_cases hss : s' = s
    · rw [if_pos hss, allLeavesChildren_cons] at hx
      rcases List.mem_append.mp hx with h | h
      · rcases mem_allLeaves_update qr c a x h with h1 | h1
        · exact Or.inl h1
        · exact Or.inr (List.mem_append.mpr (Or.inl h1))
      · exact Or.inr (List.mem_append.mpr (Or.inr h))
    · rw [if_neg hss, allLeavesChildren_cons] at hx
      rcases List.mem_append.mp hx with h | h
      · exact Or.inr (List.mem_append.mpr (Or.inl h))
      · rcases mem_allLeavesChildren_update s qr cs' a x h with h1 | h1
        · exact Or.inl h1
        · exact Or.inr (List.mem_append.mpr (Or.inr h1))
termination_by (qr.length, sizeOf cs)

end
theorem bindAll_cons (t : Node) (k : String) (v : NpArr)
    (rest : List (String × NpArr)) :
    bindAll t ((k, v) :: rest) =
      match parsePath k with
      | none => .fatal (.malformedPath k) t []
      | some p =>
        match resolve t p with
        | .error _ => (bindAll t rest).withLog [.perKey v.shape none k]
        | .ok w =>
          if w.shape = v.shape then
            (bindAll (update t p (v.astype .float32)) rest).withLog
              [.perKey v.shape (some w) k]
          else
            .fatal (.shapeMismatch k w.shape v.shape) t
              [.perKey v.shape (some w) k] := rfl

/-- The binding pass over a concatenation runs the prefix, then continues
from the prefix's final tree, short-circuiting on a fatal prefix. -/
theorem bindAll_append (xs ys : List (String × NpArr)) (t : Node) :
    bindAll t (xs ++ ys) = (bindAll t xs).andThen (fun u => bindAll u ys) := by
  induction xs generalizing t with
  | nil =>
    show bindAll t ys = (bindAll t ys).withLog []
    rw [withLog_nil]
  | cons e xs' IH =>
    obtain ⟨k, v⟩ := e
    rw [List.cons_append, bindAll_cons, bindAll_cons]
    cases hpk : parsePath k with
    | none => rfl
    | some p =>
      simp only
      cases hr : resolve t p with
      | error e2 => simp only; rw [IH t, withLog_andThen]
      | ok w =>
        simp only
        by_cases hsh : w.shape = v.shape
        · rw [if_pos hsh, if_pos hsh, IH _, withLog_andThen]
        · rw [if_neg hsh, if_neg hsh]; rfl

/-- A path that fails to resolve before the pass still fails, with the same
error, after any completed pass: binding never changes the tree's structure. -/
theorem bindAll_resolve_error (es : List (String × NpArr)) (p : List Seg)
    (e : RErr) (t' : Node) :
    ∀ (t : Node) (log : List LogLine), bindAll t es = .ok t' log →
      resolve t p = .error e → resolve t' p = .error e := by
  induction es with
  | nil =>
    intro t log hrun hp
    simp only [bindAll, BindOutcome.ok.injEq] at hrun
    rw [← hrun.1]; exact hp
  | cons ekv es' IH =>
    obtain ⟨k, v⟩ := ekv
    intro t log hrun hp
    rw [bindAll_cons] at hrun
    cases hpk : parsePath k with
    | none => rw [hpk] at hrun; exact absurd hrun (by simp)
    | some q =>
      rw [hpk] at hrun
      simp only at hrun
      cases hr : resolve t q with
      | error e2 =>
        rw [hr] at hrun
        simp only at hrun
        obtain ⟨log', h1, _⟩ := withLog_ok_inv hrun
        exact IH t log' h1 hp
      | ok w =>
        rw [hr] at hrun
        simp only at hrun
        by_cases hsh : w.shape = v.shape
        · rw [if_pos hsh] at hrun
          obtain ⟨log', h1, _⟩ := withLog_ok_inv hrun
          have hp' : resolve (update t q (v.astype .float32)) p = .error e := by
            rw [resolve_update (v.astype .float32) q t w hr p]
            by_cases hpq : p = q
            · rw [hpq] at hp; rw [hr] at hp; exact Except.noConfusion hp
            · rw [if_neg hpq]; exact hp
          exact IH _ log' h1 hp'
        · rw [if_neg hsh] at hrun; exact absurd hrun (by simp)

/-- A path that resolves before the pass still resolves after any completed
pass, to an array of the same shape: successful binds only replace leaf
contents with arrays of the asserted-equal shape. -/
theorem bindAll_resolve_shape (es : List (String × NpArr)) (p : List Seg)
    (t' : Node) :
    ∀ (t : Node) (log : List LogLine) (w : NpArr), bindAll t es = .ok t' log →
      resolve t p = .ok w →
      ∃ w', resolve t' p = .ok w' ∧ w'.shape = w.shape := by
  induction es with
  | nil =>
    intro t log w hrun hp
    simp only [bindAll, BindOutcome.ok.injEq] at hrun
    exact ⟨w, by rw [← hrun.1]; exact hp, rfl⟩
  | cons ekv es' IH =>
    obtain ⟨k, v⟩ := ekv
    intro t log w hrun hp
    rw [bindAll_cons] at hrun
    cases hpk : parsePath k with
    | none => rw [hpk] at hrun; exact absurd hrun (by simp)
    | some q =>
      rw [hpk] at hrun
      simp only at hrun
      cases hr : resolve t q with
      | error e2 =>
        rw [hr] at hrun
        simp only at hrun
        obtain ⟨log', h1, _⟩ := withLog_ok_inv hrun
        exact IH t log' w h1 hp
      | ok w₀ =>
        rw [hr] at hrun
        simp only at hrun
        by_cases hsh : w₀.shape = v.shape
        · rw [if_pos hsh] at hrun
          obtain ⟨log', h1, _⟩ := withLog_ok_inv hrun
          by_cases hpq : p = q
          · have hw : w = w₀ := by
              rw [hpq] at hp; rw [hr] at hp; exact (Except.ok.inj hp).symm
            have hp' : resolve (update t q (v.astype .float32)) p =
                .ok (v.astype .float32) := by
              rw [resolve_update (v.astype .float32) q t w₀ hr p, if_pos hpq]
            obtain ⟨w', hw', hsh'⟩ := IH _ log' (v.astype .float32) h1 hp'
            refine ⟨w', hw', ?_⟩
            rw [hsh', hw]
            exact hsh.symm
          · have hp' : resolve (update t q (v.astype .float32)) p = .ok w := by
              rw [resolve_update (v.astype .float32) q t w₀ hr p, if_neg hpq]
              exact hp
            exact IH _ log' w h1 hp'
        · rw [if_neg hsh] at hrun; exact absurd hrun (by simp)

/-- A completed pass containing no entry for path `p` leaves the leaf at `p`
untouched. -/
theorem bindAll_untouched (es : List (String × NpArr)) (p : List Seg)
    (t' : Node) (hes : ∀ e ∈ es, parsePath e.1 ≠ some p) :
    ∀ (t : Node) (log : List LogLine), bindAll t es = .ok t' log →
      resolve t' p = resolve t p := by
  induction es with
  | nil =>
    intro t log hrun
    simp only [bindAll, BindOutcome.ok.injEq] at hrun
    rw [← hrun.1]
  | cons ekv es' IH =>
    obtain ⟨k, v⟩ := ekv
    intro t log hrun
    have hknp : parsePath k ≠ some p := hes (k, v) (List.mem_cons_self _ _)
    have hes' : ∀ e ∈ es', parsePath e.1 ≠ some p :=
      fun e he => hes e (List.mem_cons_of_mem _ he)
    rw [bindAll_cons] at hrun
    cases hpk : parsePath k with
    | none => rw [hpk] at hrun; exact absurd hrun (by simp)
    | some q =>
      have hqp : q ≠ p := fun h => hknp (h ▸ hpk)
      rw [hpk] at hrun
      simp only at hrun
      cases hr : resolve t q with
      | error e2 =>
        rw [hr] at hrun
        simp only at hrun
        obtain ⟨log', h1, _⟩ := withLog_ok_inv hrun
        exact IH hes' t log' h1
      | ok w₀ =>
        rw [hr] at hrun
        simp only at hrun
        by_cases hsh : w₀.shape = v.shape
        · rw [if_pos hsh] at hrun
          obtain ⟨log', h1, _⟩ := withLog_ok_inv hrun
          rw [IH hes' _ log' h1,
            resolve_update (v.astype .float32) q t w₀ hr p,
            if_neg (fun h => hqp h.symm)]
        · rw [if_neg hsh] at hrun; exact absurd hrun (by simp)

/-- A completed pass prints exactly one per-key line per checkpoint entry and
never a summary line. -/
theorem bindAll_log (es : List (String × NpArr)) (t' : Node) :
    ∀ (t : Node) (log : List LogLine), bindAll t es = .ok t' log →
      log.length = es.length ∧ ∀ l ∈ log, l.isSummary = false := by
  induction es with
  | nil =>
    intro t log hrun
    simp only [bindAll, BindOutcome.ok.injEq] at hrun
    rw [← hrun.2]
    exact ⟨rfl, by intro l hl; exact absurd hl (List.not_mem_nil l)⟩
  | cons ekv es' IH =>
    obtain ⟨k, v⟩ := ekv
    intro t log hrun
    rw [bindAll_cons] at hrun
    cases hpk : parsePath k with
    | none => rw [hpk] at hrun; exact absurd hrun (by simp)
    | some q =>
      rw [hpk] at hrun
      simp only at hrun
      cases hr : resolve t q with
      | error e2 =>
        rw [hr] at hrun
        simp only at hrun
        obtain ⟨log', h1, h2⟩ := withLog_ok_inv hrun
        obtain ⟨hlen, hsum⟩ := IH t log' h1
        refine ⟨by rw [h2]; simp [hlen], ?_⟩
        intro l hl
        rw [h2] at hl
        rcases List.mem_append.mp hl with h | h
        · rw [List.mem_singleton.mp h]; rfl
        · exact hsum l h
      | ok w₀ =>
        rw [hr] at hrun
        simp only at hrun
        by_cases hsh : w₀.shape = v.shape
        · rw [if_pos hsh] at hrun
          obtain ⟨log', h1, h2⟩ := withLog_ok_inv hrun
          obtain ⟨hlen, hsum⟩ := IH _ log' h1
          refine ⟨by rw [h2]; simp [hlen], ?_⟩
          intro l hl
          rw [h2] at hl
          rcases List.mem_append.mp hl with h | h
          · rw [List.mem_singleton.mp h]; rfl
          · exact hsum l h
        · rw [if_neg hsh] at hrun; exact absurd hrun (by simp)

/-- Idempotence kernel: when the checkpoint's keys parse to pairwise distinct
paths, re-running a completed pass from its own final tree completes and
leaves that tree unchanged. -/
theorem bindAll_idem (es : List (String × NpArr))
    (hnd : (es.map (fun e => parsePath e.1)).Nodup) :
    ∀ (t t' : Node) (log : List LogLine), bindAll t es = .ok t' log →
      ∃ log₂, bindAll t' es = .ok t' log₂ := by
  induction es with
  | nil =>
    intro t t' log hrun
    simp only [bindAll, BindOutcome.ok.injEq] at hrun
    exact ⟨[], by rw [← hrun.1]; rfl⟩
  | cons ekv es' IH =>
    obtain ⟨k, v⟩ := ekv
    intro t t' log hrun
    rw [List.map_cons, List.nodup_cons] at hnd
    obtain ⟨hhead, htail⟩ := hnd
    rw [bindAll_cons] at hrun
    cases hpk : parsePath k with
    | none => rw [hpk] at hrun; exact absurd hrun (by simp)
    | some q =>
      rw [hpk] at hrun
      simp only at hrun
      cases hr : resolve t q with
      | error e2 =>
        rw [hr] at hrun
        simp only at hrun
        obtain ⟨log', h1, _⟩ := withLog_ok_inv hrun
        have hr' : resolve t' q = .error e2 :=
          bindAll_resolve_error es' q e2 t' t log' h1 hr
        obtain ⟨log₂, hb⟩ := IH htail t t' log' h1
        refine ⟨[LogLine.perKey v.shape none k] ++ log₂, ?_⟩
        rw [bindAll_cons, hpk]
        simp only
        rw [hr']
        simp only
        rw [hb]
        rfl
      | ok w₀ =>
        rw [hr] at hrun
        simp only at hrun
        by_cases hsh : w₀.shape = v.shape
        · rw [if_pos hsh] at hrun
          obtain ⟨log', h1, _⟩ := withLog_ok_inv hrun
          have hne : ∀ e ∈ es', parsePath e.1 ≠ some q := by
            intro e he hq
            rw [hpk] at hhead
            exact hhead (by rw [← hq]; exact List.mem_map_of_mem _ he)
          have hfin : resolve t' q = .ok (v.astype .float32) := by
            rw [bindAll_untouched es' q t' hne _ log' h1,
              resolve_update (v.astype .float32) q t w₀ hr q, if_pos rfl]
          obtain ⟨log₂, hb⟩ := IH htail _ t' log' h1
          refine ⟨[LogLine.perKey v.shape (some (v.astype .float32)) k] ++ log₂, ?_⟩
          rw [bindAll_cons, hpk]
          simp only
          rw [hfin]
          simp only
          rw [if_pos (show (v.astype .float32).shape = v.shape from rfl),
            update_resolve_id q t' (v.astype .float32) hfin, hb]
          rfl
        · rw [if_neg hsh] at hrun; exact absurd hrun (by simp)
/-- Modelled from the spec: tensor numerics are external to this file (spec
§1: "every primitive ... is implemented elsewhere"), so a tensor value is
abstracted to the set of random-sampler draws it depends on; shapes and
numeric contents are the external collaborator's concern.  Library primitives
below combine these dependence sets; `Tensor.uniform` is the one sampling
primitive, returning a tensor carrying a fresh draw and advancing the sampler
state. -/
structure Tensor where
  taint : List Nat
deriving DecidableEq, Repr

/-- An uninitialized parameter tensor (`Tensor.empty`, with `Tensor.no_init`
set by the entry point): depends on no draw. -/
def Tensor.empty : Tensor :=
  ⟨[]⟩

/-- A tensor built from deterministic host data (`Tensor(np-array)`). -/
def Tensor.fromArray : Tensor :=
  ⟨[]⟩

/-- Modelled from the spec: `Tensor.uniform` samples fresh random values; the
result carries the draw index and the sampler state advances. -/
def Tensor.uniform : StateM Nat Tensor :=
  fun n => (⟨[n]⟩, n + 1)

/-- Binary primitive (`+`, `*`, `@`, `cat`, `linear`): the output depends on
both operands' draws. -/
def Tensor.mix (a b : Tensor) : Tensor :=
  ⟨(a.taint ++ b.taint).dedup⟩

/-- Unary primitive (reshape / permute / expand / normalization / activation /
softmax / slicing / scalar scaling): the output depends on the operand's
draws. -/
def Tensor.uop (a : Tensor) : Tensor :=
  a

def Tensor.reshape (a : Tensor) : Tensor := a.uop
def Tensor.permute (a : Tensor) : Tensor := a.uop
def Tensor.expand (a : Tensor) : Tensor := a.uop
def Tensor.layernorm (a : Tensor) : Tensor := a.uop
def Tensor.softmax (a : Tensor) : Tensor := a.uop
def Tensor.swish (a : Tensor) : Tensor := a.uop
def Tensor.silu (a : Tensor) : Tensor := a.uop
def Tensor.gelu (a : Tensor) : Tensor := a.uop
def Tensor.quickGelu (a : Tensor) : Tensor := a.uop
def Tensor.transpose (a : Tensor) : Tensor := a.uop
def Tensor.scale (a : Tensor) : Tensor := a.uop
def Tensor.sliceChannels (a : Tensor) : Tensor := a.uop
def Tensor.add (a b : Tensor) : Tensor := a.mix b
def Tensor.mul (a b : Tensor) : Tensor := a.mix b
def Tensor.matmul (a b : Tensor) : Tensor := a.mix b
def Tensor.cat (a b : Tensor) : Tensor := a.mix b

/-- Split in two along the last axis (`chunk(2, dim=-1)`). -/
def Tensor.chunk2 (a : Tensor) : Tensor × Tensor :=
  (a.uop, a.uop)

/-- Affine application `x.linear(w, b)` with optional bias. -/
def Tensor.linear (x w : Tensor) (b : Option Tensor) : Tensor :=
  match b with
  | some bb => (x.mix w).mix bb
  | none => x.mix w

/-- Modelled from the spec: `tinygrad.nn.Conv2d` (external library): holds a
weight and a bias parameter; its output depends on the input and both
parameters.  Stride / padding / kernel size do not affect draw dependence. -/
structure Conv2d where
  weight : Tensor
  bias : Tensor

def Conv2d.init (in_channels out_channels kernel_size : Nat) : Conv2d :=
  ⟨Tensor.empty, Tensor.empty⟩

def Conv2d.call (m : Conv2d) (x : Tensor) : Tensor :=
  (x.mix m.weight).mix m.bias

/-- Group normalization (source lines 13-29): affine parameters `weight` and
`bias` over `num_groups` groups.  Both branches of `__call__` (4-d conv
activations vs. linear) combine the input with both parameters, which is what
the model records. -/
structure Normalize where
  weight : Tensor
  bias : Tensor
  num_groups : Nat

def Normalize.init (in_channels num_groups : Nat) : Normalize :=
  ⟨Tensor.empty, Tensor.empty, num_groups⟩

def Normalize.call (m : Normalize) (x : Tensor) : StateM Nat Tensor :=
  pure (((x.reshape.layernorm.reshape).mul m.weight.reshape).add m.bias.reshape)

/-- Self-attention block of the autoencoder (source lines 32-60). -/
structure AttnBlock where
  norm : Normalize
  q : Conv2d
  k : Conv2d
  v : Conv2d
  proj_out : Conv2d

def AttnBlock.init (in_channels : Nat) : AttnBlock :=
  ⟨Normalize.init in_channels 32, Conv2d.init in_channels in_channels 1,
   Conv2d.init in_channels in_channels 1, Conv2d.init in_channels in_channels 1,
   Conv2d.init in_channels in_channels 1⟩

def AttnBlock.call (m : AttnBlock) (x : Tensor) : StateM Nat Tensor := do
  let h1 ← m.norm.call x
  let q := (m.q.call h1).reshape.permute
  let k := (m.k.call h1).reshape
  let v := (m.v.call h1).reshape
  let w1 := (q.matmul k).scale.softmax
  let h2 := (v.matmul w1.permute).reshape
  pure (x.add (m.proj_out.call h2))

/-- Residual block of the autoencoder (source lines 62-73); the 1x1 shortcut
convolution exists only when the channel counts differ. -/
structure ResnetBlock where
  norm1 : Normalize
  conv1 : Conv2d
  norm2 : Normalize
  conv2 : Conv2d
  nin_shortcut : Option Conv2d

def ResnetBlock.init (in_channels out_channels : Nat) : ResnetBlock :=
  ⟨Normalize.init in_channels 32, Conv2d.init in_channels out_channels 3,
   Normalize.init out_channels 32, Conv2d.init out_channels out_channels 3,
   if in_channels ≠ out_channels then some (Conv2d.init in_channels out_channels 1)
   else none⟩

def ResnetBlock.call (m : ResnetBlock) (x : Tensor) : StateM Nat Tensor := do
  let n1 ← m.norm1.call x
  let h := m.conv1.call n1.swish
  let n2 ← m.norm2.call h
  let h := m.conv2.call n2.swish
  let sc := match m.nin_shortcut with
    | some c => c.call x
    | none => x
  pure (sc.add h)

/-- Middle stage of encoder/decoder (source lines 75-82). -/
structure Mid where
  block_1 : ResnetBlock
  attn_1 : AttnBlock
  block_2 : ResnetBlock

def Mid.init (block_in : Nat) : Mid :=
  ⟨ResnetBlock.init block_in block_in, AttnBlock.init block_in,
   ResnetBlock.init block_in block_in⟩

def Mid.call (m : Mid) (x : Tensor) : StateM Nat Tensor := do
  let x ← m.block_1.call x
  let x ← m.attn_1.call x
  m.block_2.call x

/-- One up-sampling stage of the decoder (source lines 90-97): three residual
blocks and, except for the innermost stage, an upsample convolution. -/
structure UpStage where
  block : List ResnetBlock
  upsample : Option Conv2d

/-- One stage of the decoder's loop body (source lines 106-113): the residual
blocks, then nearest-neighbour upsampling followed by the stage convolution. -/
def UpStage.call (l : UpStage) (x : Tensor) : StateM Nat Tensor := do
  let x ← l.block.foldlM (fun acc b => b.call acc) x
  match l.upsample with
  | some c => pure (c.call (x.reshape.expand.reshape))
  | none => pure x

/-- The autoencoder decoder (source lines 84-115). -/
structure Decoder where
  conv_in : Conv2d
  mid : Mid
  up : List UpStage
  norm_out : Normalize
  conv_out : Conv2d

def Decoder.init : Decoder :=
  let sz : List (Nat × Nat) := [(128, 256), (256, 512), (512, 512), (512, 512)]
  { conv_in := Conv2d.init 4 512 3
    mid := Mid.init 512
    up := sz.mapIdx fun i s =>
      { block := [ResnetBlock.init s.2 s.1, ResnetBlock.init s.1 s.1,
                  ResnetBlock.init s.1 s.1]
        upsample := if i ≠ 0 then some (Conv2d.init s.1 s.1 3) else none }
    norm_out := Normalize.init 128 32
    conv_out := Conv2d.init 128 3 3 }

def Decoder.call (m : Decoder) (x : Tensor) : StateM Nat Tensor := do
  let x := m.conv_in.call x
  let x ← m.mid.call x
  let x ← m.up.reverse.foldlM (fun acc l => l.call acc) x
  let n ← m.norm_out.call x
  pure (m.conv_out.call n.swish)

/-- One down-sampling stage of the encoder (source lines 123-128). -/
structure DownStage where
  block : List ResnetBlock
  downsample : Option Conv2d

/-- One stage of the encoder's loop body (source lines 138-141). -/
def DownStage.call (l : DownStage) (x : Tensor) : StateM Nat Tensor := do
  let x ← l.block.foldlM (fun acc b => b.call acc) x
  match l.downsample with
  | some c => pure (c.call x)
  | none => pure x

/-- The autoencoder encoder (source lines 118-144). -/
structure Encoder where
  conv_in : Conv2d
  down : List DownStage
  mid : Mid
  norm_out : Normalize
  conv_out : Conv2d

def Encoder.init : Encoder :=
  let sz : List (Nat × Nat) := [(128, 128), (128, 256), (256, 512), (512, 512)]
  { conv_in := Conv2d.init 3 128 3
    down := sz.mapIdx fun i s =>
      { block := [ResnetBlock.init s.1 s.2, ResnetBlock.init s.2 s.2]
        downsample := if i ≠ 3 then some (Conv2d.init s.2 s.2 3) else none }
    mid := Mid.init 512
    norm_out := Normalize.init 512 32
    conv_out := Conv2d.init 512 8 3 }

def Encoder.call (m : Encoder) (x : Tensor) : StateM Nat Tensor := do
  let x := m.conv_in.call x
  let x ← m.down.foldlM (fun acc l => l.call acc) x
  let x ← m.mid.call x
  let n ← m.norm_out.call x
  pure (m.conv_out.call n.swish)

/-- The variational autoencoder (source lines 146-159); the slice keeps only
the mean channels of the quantized latent. -/
structure AutoencoderKL where
  encoder : Encoder
  decoder : Decoder
  quant_conv : Conv2d
  post_quant_conv : Conv2d

def AutoencoderKL.init : AutoencoderKL :=
  ⟨Encoder.init, Decoder.init, Conv2d.init 8 8 1, Conv2d.init 4 4 1⟩

def AutoencoderKL.call (m : AutoencoderKL) (x : Tensor) : StateM Nat Tensor := do
  let latent ← m.encoder.call x
  let latent := (m.quant_conv.call latent).sliceChannels
  let latent := m.post_quant_conv.call latent
  m.decoder.call latent

/-- Linear layer (source lines 161-168) with optional bias. -/
structure Linear where
  weight : Tensor
  bias : Option Tensor

def Linear.init (in_features out_features : Nat) (bias : Bool) : Linear :=
  ⟨Tensor.empty, if bias then some Tensor.empty else none⟩

def Linear.call (m : Linear) (x : Tensor) : Tensor :=
  x.linear m.weight.transpose m.bias

/-- U-Net residual block (source lines 171-195): `in_layers` is
normalize/silu/conv, `emb_layers` is silu/linear, `out_layers` is
normalize/silu/identity/conv; the 1x1 skip convolution exists only when the
channel counts differ. -/
structure ResBlock where
  in_norm : Normalize
  in_conv : Conv2d
  emb_lin : Linear
  out_norm : Normalize
  out_conv : Conv2d
  skip_connection : Option Conv2d

def ResBlock.init (channels emb_channels out_channels : Nat) : ResBlock :=
  ⟨Normalize.init channels 32, Conv2d.init channels out_channels 3,
   Linear.init emb_channels out_channels true,
   Normalize.init out_channels 32, Conv2d.init out_channels out_channels 3,
   if channels ≠ out_channels then some (Conv2d.init channels out_channels 1)
   else none⟩

def ResBlock.call (m : ResBlock) (x emb : Tensor) : StateM Nat Tensor := do
  let n1 ← m.in_norm.call x
  let h := m.in_conv.call n1.silu
  let emb_out := m.emb_lin.call emb.silu
  let h := h.add emb_out
  let n2 ← m.out_norm.call h
  let h := m.out_conv.call n2.silu
  let sc := match m.skip_connection with
    | some c => c.call x
    | none => x
  pure (sc.add h)

/-- Cross attention (source lines 197-223); when no context is given the
input attends to itself; `to_out` is the single output linear layer. -/
structure CrossAttention where
  to_q : Linear
  to_k : Linear
  to_v : Linear
  to_out : Linear

def CrossAttention.init (query_dim context_dim n_heads d_head : Nat) : CrossAttention :=
  ⟨Linear.init query_dim (n_heads * d_head) false,
   Linear.init context_dim (n_heads * d_head) false,
   Linear.init context_dim (n_heads * d_head) false,
   Linear.init (n_heads * d_head) query_dim true⟩

def CrossAttention.call (m : CrossAttention) (x : Tensor) (context : Option Tensor) :
    StateM Nat Tensor := do
  let ctx := context.getD x
  let q := m.to_q.call x
  let k := (m.to_k.call ctx).permute
  let v := m.to_v.call ctx
  let w1 := (q.matmul k).scale.softmax
  pure (m.to_out.call (w1.matmul v))

/-- Gated GELU projection (source lines 225-232). -/
structure GEGLU where
  proj : Linear

def GEGLU.init (dim_in dim_out : Nat) : GEGLU :=
  ⟨Linear.init dim_in (dim_out * 2) true⟩

def GEGLU.call (m : GEGLU) (x : Tensor) : Tensor :=
  let xg := (m.proj.call x).chunk2
  xg.1.mul xg.2.gelu

/-- Feed-forward net (source lines 234-243): GEGLU, identity, linear. -/
structure FeedForward where
  geglu : GEGLU
  lin : Linear

def FeedForward.init (dim : Nat) : FeedForward :=
  ⟨GEGLU.init dim (dim * 4), Linear.init (dim * 4) dim true⟩

def FeedForward.call (m : FeedForward) (x : Tensor) : Tensor :=
  m.lin.call (m.geglu.call x)

/-- Transformer block (source lines 245-258). -/
structure BasicTransformerBlock where
  attn1 : CrossAttention
  ff : FeedForward
  attn2 : CrossAttention
  norm1 : Normalize
  norm2 : Normalize
  norm3 : Normalize

def BasicTransformerBlock.init (dim context_dim n_heads d_head : Nat) :
    BasicTransformerBlock :=
  ⟨CrossAttention.init dim dim n_heads d_head, FeedForward.init dim,
   CrossAttention.init dim context_dim n_heads d_head,
   Normalize.init dim 1, Normalize.init dim 1, Normalize.init dim 1⟩

def BasicTransformerBlock.call (m : BasicTransformerBlock) (x : Tensor)
    (context : Option Tensor) : StateM Nat Tensor := do
  let n1 ← m.norm1.call x
  let a1 ← m.attn1.call n1 none
  let x := a1.add x
  let n2 ← m.norm2.call x
  let a2 ← m.attn2.call n2 context
  let x := a2.add x
  let n3 ← m.norm3.call x
  pure ((m.ff.call n3).add x)

/-- Spatial transformer (source lines 260-276). -/
structure SpatialTransformer where
  norm : Normalize
  proj_in : Conv2d
  transformer_blocks : List BasicTransformerBlock
  proj_out : Conv2d

def SpatialTransformer.init (channels context_dim n_heads d_head : Nat) :
    SpatialTransformer :=
  ⟨Normalize.init channels 32, Conv2d.init channels (n_heads * d_head) 1,
   [BasicTransformerBlock.init channels context_dim n_heads d_head],
   Conv2d.init (n_heads * d_head) channels 1⟩

def SpatialTransformer.call (m : SpatialTransformer) (x : Tensor)
    (context : Option Tensor) : StateM Nat Tensor := do
  let x_in := x
  let x ← m.norm.call x
  let x := (m.proj_in.call x).reshape.permute
  let x ← m.transformer_blocks.foldlM (fun acc b => b.call acc context) x
  let x := x.permute.reshape
  pure ((m.proj_out.call x).add x_in)

/-- Strided-convolution downsampling (source lines 278-283). -/
structure Downsample where
  op : Conv2d

def Downsample.init (channels : Nat) : Downsample :=
  ⟨Conv2d.init channels channels 3⟩

def Downsample.call (m : Downsample) (x : Tensor) : Tensor :=
  m.op.call x

/-- Nearest-neighbour upsampling followed by convolution (source lines
285-292). -/
structure Upsample where
  conv : Conv2d

def Upsample.init (channels : Nat) : Upsample :=
  ⟨Conv2d.init channels channels 3⟩

def Upsample.call (m : Upsample) (x : Tensor) : Tensor :=
  m.conv.call (x.reshape.expand.reshape)
/-- A U-Net stage member, matching the `isinstance` dispatch of the `run`
helper in `UNetModel.__call__` (source lines 346-350): residual blocks take
the time embedding, spatial transformers take the context, everything else
(plain conv, down/upsample) takes only the activations. -/
inductive UBlock where
  | conv (m : Conv2d)
  | res (m : ResBlock)
  | spatial (m : SpatialTransformer)
  | down (m : Downsample)
  | up (m : Upsample)

/-- The `run` dispatch of `UNetModel.__call__`. -/
def UBlock.run (bb : UBlock) (emb : Tensor) (context : Option Tensor)
    (x : Tensor) : StateM Nat Tensor :=
  match bb with
  | .res m => m.call x emb
  | .spatial m => m.call x context
  | .conv m => pure (m.call x)
  | .down m => pure (m.call x)
  | .up m => pure (m.call x)

/-- The denoising U-Net (source lines 294-365). -/
structure UNetModel where
  time_embed_lin1 : Linear
  time_embed_lin2 : Linear
  input_blocks : List (List UBlock)
  middle_block : List UBlock
  output_blocks : List (List UBlock)
  out_norm : Normalize
  out_conv : Conv2d

/-- Transcription of `UNetModel.__init__` (source lines 295-339):
`time_embed` is linear/silu/linear, `out` is normalize/silu/conv. -/
def UNetModel.init : UNetModel :=
  { time_embed_lin1 := Linear.init 320 1280 true
    time_embed_lin2 := Linear.init 1280 1280 true
    input_blocks := [
      [.conv (Conv2d.init 4 320 3)],
      [.res (ResBlock.init 320 1280 320), .spatial (SpatialTransformer.init 320 768 10 32)],
      [.res (ResBlock.init 320 1280 320), .spatial (SpatialTransformer.init 320 768 10 32)],
      [.down (Downsample.init 320)],
      [.res (ResBlock.init 320 1280 640), .spatial (SpatialTransformer.init 640 768 10 64)],
      [.res (ResBlock.init 640 1280 640), .spatial (SpatialTransformer.init 640 768 10 64)],
      [.down (Downsample.init 640)],
      [.res (ResBlock.init 640 1280 1280), .spatial (SpatialTransformer.init 1280 768 10 128)],
      [.res (ResBlock.init 1280 1280 1280), .spatial (SpatialTransformer.init 1280 768 10 128)],
      [.down (Downsample.init 1280)],
      [.res (ResBlock.init 1280 1280 1280)],
      [.res (ResBlock.init 1280 1280 1280)]]
    middle_block := [
      .res (ResBlock.init 1280 1280 1280),
      .spatial (SpatialTransformer.init 1280 768 10 128),
      .res (ResBlock.init 1280 1280 1280)]
    output_blocks := [
      [.res (ResBlock.init 2560 1280 1280)],
      [.res (ResBlock.init 2560 1280 1280)],
      [.res (ResBlock.init 2560 1280 1280), .up (Upsample.init 1280)],
      [.res (ResBlock.init 2560 1280 1280), .spatial (SpatialTransformer.init 1280 768 10 128)],
      [.res (ResBlock.init 2560 1280 1280), .spatial (SpatialTransformer.init 1280 768 10 128)],
      [.res (ResBlock.init 1920 1280 1280), .spatial (SpatialTransformer.init 1280 768 10 128), .up (Upsample.init 1280)],
      [.res (ResBlock.init 1920 1280 640), .spatial (SpatialTransformer.init 640 768 10 64)],
      [.res (ResBlock.init 1280 1280 640), .spatial (SpatialTransformer.init 640 768 10 64)],
      [.res (ResBlock.init 960 1280 640), .spatial (SpatialTransformer.init 640 768 10 64), .up (Upsample.init 640)],
      [.res (ResBlock.init 960 1280 320), .spatial (SpatialTransformer.init 320 768 10 32)],
      [.res (ResBlock.init 640 1280 320), .spatial (SpatialTransformer.init 320 768 10 32)],
      [.res (ResBlock.init 640 1280 320), .spatial (SpatialTransformer.init 320 768 10 32)]]
    out_norm := Normalize.init 320 32
    out_conv := Conv2d.init 320 4 3 }

/-- Run one U-Net stage's block list over the activations via the `run`
dispatch (the inner loops of source lines 355-356, 358-359, 363-364). -/
def UBlock.runList (blocks : List UBlock) (emb : Tensor) (context : Option Tensor)
    (x : Tensor) : StateM Nat Tensor :=
  blocks.foldlM (fun xx bb => bb.run emb context xx) x

/-- The input half of `UNetModel.__call__` (source lines 352-357): run each
input stage in order and save each stage's output. -/
def UNetModel.inputStage (m : UNetModel) (emb : Tensor) (context : Option Tensor)
    (x : Tensor) : StateM Nat (Tensor × List Tensor) :=
  m.input_blocks.foldlM
    (fun acc b => do
      let x ← UBlock.runList b emb context acc.1
      pure (x, acc.2 ++ [x]))
    (x, ([] : List Tensor))

/-- The output half of `UNetModel.__call__` (source lines 360-364): each
output stage first concatenates the most recent remaining saved input
(`saved_inputs.pop()`; `saved` is passed already reversed, so the pop is a
head take).  Popping only ever happens while saved outputs remain, so the
default tensor of the pop model is never used. -/
def UNetModel.outputStage (m : UNetModel) (emb : Tensor) (context : Option Tensor)
    (x : Tensor) (saved : List Tensor) : StateM Nat (Tensor × List Tensor) :=
  m.output_blocks.foldlM
    (fun acc b => do
      let x := acc.1.cat (acc.2.headD Tensor.empty)
      let x ← UBlock.runList b emb context x
      pure (x, acc.2.tail))
    (x, saved)

/-- Transcription of `UNetModel.__call__` (source lines 341-365).  The time
embedding is a placeholder (`TODO: real time embedding`, line 342): a fresh
uniform sample is drawn on every call and fed through `time_embed` into every
residual block. -/
def UNetModel.call (m : UNetModel) (x : Tensor) (context : Option Tensor) :
    StateM Nat Tensor := do
  let t_emb ← Tensor.uniform
  let emb := m.time_embed_lin2.call (m.time_embed_lin1.call t_emb).silu
  let acc1 ← m.inputStage emb context x
  let xmid ← UBlock.runList m.middle_block emb context acc1.1
  let acc2 ← m.outputStage emb context xmid acc1.2.reverse
  let n ← m.out_norm.call acc2.1
  pure (m.out_conv.call n.silu)

/-- CLIP MLP (source lines 367-376). -/
structure CLIPMLP where
  fc1 : Linear
  fc2 : Linear

def CLIPMLP.init : CLIPMLP :=
  ⟨Linear.init 768 3072 true, Linear.init 3072 768 true⟩

def CLIPMLP.call (m : CLIPMLP) (hidden_states : Tensor) : StateM Nat Tensor :=
  pure (m.fc2.call (m.fc1.call hidden_states).quickGelu)

/-- CLIP self-attention (source lines 378-414); the head bookkeeping is shape
manipulation, recorded as unary reshapes/permutes. -/
structure CLIPAttention where
  k_proj : Linear
  v_proj : Linear
  q_proj : Linear
  out_proj : Linear

def CLIPAttention.init : CLIPAttention :=
  ⟨Linear.init 768 768 true, Linear.init 768 768 true,
   Linear.init 768 768 true, Linear.init 768 768 true⟩

def CLIPAttention.call (m : CLIPAttention) (hidden_states : Tensor) :
    StateM Nat Tensor := do
  let q := ((m.q_proj.call hidden_states).scale.reshape.permute).reshape
  let k := ((m.k_proj.call hidden_states).reshape.permute).reshape
  let v := ((m.v_proj.call hidden_states).reshape.permute).reshape
  let attn := (q.matmul k.permute).softmax
  let out := ((attn.matmul v).reshape.permute).reshape
  pure (m.out_proj.call out)

/-- CLIP encoder layer (source lines 416-434). -/
structure CLIPEncoderLayer where
  self_attn : CLIPAttention
  layer_norm1 : Normalize
  mlp : CLIPMLP
  layer_norm2 : Normalize

def CLIPEncoderLayer.init : CLIPEncoderLayer :=
  ⟨CLIPAttention.init, Normalize.init 768 1, CLIPMLP.init, Normalize.init 768 1⟩

def CLIPEncoderLayer.call (m : CLIPEncoderLayer) (hidden_states : Tensor) :
    StateM Nat Tensor := do
  let residual := hidden_states
  let h ← m.layer_norm1.call hidden_states
  let h ← m.self_attn.call h
  let h := residual.add h
  let residual2 := h
  let h2 ← m.layer_norm2.call h
  let h2 ← m.mlp.call h2
  pure (residual2.add h2)

/-- CLIP encoder: twelve identical layers (source lines 436-441). -/
structure CLIPEncoder where
  layers : List CLIPEncoderLayer

def CLIPEncoder.init : CLIPEncoder :=
  ⟨List.replicate 12 CLIPEncoderLayer.init⟩

def CLIPEncoder.call (m : CLIPEncoder) (hidden_states : Tensor) :
    StateM Nat Tensor :=
  m.layers.foldlM (fun acc l => l.call acc) hidden_states

/-- CLIP text embeddings (source lines 443-457): one-hot encodings of the
token and position ids (deterministic host data) are multiplied with the two
embedding matrices and summed. -/
structure CLIPTextEmbeddings where
  position_ids : Tensor
  token_embedding_weight : Tensor
  position_embedding_weight : Tensor

def CLIPTextEmbeddings.init : CLIPTextEmbeddings :=
  ⟨Tensor.empty, Tensor.empty, Tensor.empty⟩

def CLIPTextEmbeddings.call (m : CLIPTextEmbeddings)
    (input_ids position_ids : List Nat) : StateM Nat Tensor :=
  pure ((Tensor.fromArray.matmul m.token_embedding_weight).add
    (Tensor.fromArray.matmul m.position_embedding_weight))

/-- CLIP text transformer (source lines 459-468). -/
structure CLIPTextTransformer where
  embeddings : CLIPTextEmbeddings
  encoder : CLIPEncoder
  final_layer_norm : Normalize

def CLIPTextTransformer.init : CLIPTextTransformer :=
  ⟨CLIPTextEmbeddings.init, CLIPEncoder.init, Normalize.init 768 1⟩

def CLIPTextTransformer.call (m : CLIPTextTransformer) (input_ids : List Nat) :
    StateM Nat Tensor := do
  let x ← m.embeddings.call input_ids (List.range input_ids.length)
  let x ← m.encoder.call x
  m.final_layer_norm.call x

/-- The `Transformer` namedtuple wrapper (source line 474). -/
structure Transformer where
  text_model : CLIPTextTransformer

/-- The `CondStageModel` namedtuple wrapper (source line 474). -/
structure CondStageModel where
  transformer : Transformer

/-- Python attribute-lookup failure surfaced by a forward pass. -/
inductive PyErr where
  | attributeError (attr : String)
deriving DecidableEq, Repr

/-- The top-level model (source lines 470-478).  The constructor assigns only
`cond_stage_model`: the `model` (U-Net) and `first_stage_model` (autoencoder)
assignments are commented out at source lines 472-473. -/
structure StableDiffusion where
  cond_stage_model : CondStageModel

def StableDiffusion.init : StableDiffusion :=
  ⟨⟨⟨CLIPTextTransformer.init⟩⟩⟩

/-- Transcription of `StableDiffusion.__call__` (source lines 476-478): a
fresh uniform context tensor is sampled, then `self.model.diffusion_model` is
evaluated; since the constructor never assigns `model`, the attribute lookup
raises `AttributeError` on every call. -/
def StableDiffusion.call (m : StableDiffusion) (x : Tensor) :
    StateM Nat (Except PyErr Tensor) := do
  let _context ← Tensor.uniform
  pure (.error (.attributeError "model"))
instance instDecEqId {α : Type} [d : DecidableEq α] : DecidableEq (Id α) := d

theorem idBindEq {a b : Type} (x : Id a) (f : a → Id b) : (x >>= f : Id b) = f x := rfl

/-- The saved input-stage outputs of the first U-Net call: the first stage is
a plain convolution of draw-free tensors, every later stage mixes in the time
embedding carrying draw 0. -/
def unetSaved0 : List Tensor :=
  [⟨[]⟩, ⟨[0]⟩, ⟨[0]⟩, ⟨[0]⟩, ⟨[0]⟩, ⟨[0]⟩, ⟨[0]⟩, ⟨[0]⟩, ⟨[0]⟩, ⟨[0]⟩, ⟨[0]⟩, ⟨[0]⟩]

/-- The saved input-stage outputs of the second U-Net call (draw 1). -/
def unetSaved1 : List Tensor :=
  [⟨[]⟩, ⟨[1]⟩, ⟨[1]⟩, ⟨[1]⟩, ⟨[1]⟩, ⟨[1]⟩, ⟨[1]⟩, ⟨[1]⟩, ⟨[1]⟩, ⟨[1]⟩, ⟨[1]⟩, ⟨[1]⟩]

set_option maxRecDepth 40000

/-- First call of the U-Net on a draw-free input: the output depends on the
sampler's draw 0 (the placeholder time embedding) and the sampler advances. -/
theorem unet_run0 :
    ((UNetModel.init.call Tensor.empty none).run 0 : Tensor × Nat) = (⟨[0]⟩, 1) := by
  have hu : (Tensor.uniform.run 0 : Tensor × Nat) = (⟨[0]⟩, 1) := rfl
  have hemb : UNetModel.init.time_embed_lin2.call
      ((UNetModel.init.time_embed_lin1.call ⟨[0]⟩).silu) = ⟨[0]⟩ := by decide
  have hin : ((UNetModel.init.inputStage ⟨[0]⟩ none Tensor.empty).run 1 :
      (Tensor × List Tensor) × Nat) = ((⟨[0]⟩, unetSaved0), 1) := by decide
  have hrev : unetSaved0.reverse =
      [⟨[0]⟩, ⟨[0]⟩, ⟨[0]⟩, ⟨[0]⟩, ⟨[0]⟩, ⟨[0]⟩, ⟨[0]⟩, ⟨[0]⟩, ⟨[0]⟩, ⟨[0]⟩, ⟨[0]⟩, ⟨[]⟩] := by
    decide
  have hmid : ((UBlock.runList UNetModel.init.middle_block ⟨[0]⟩ none ⟨[0]⟩).run 1 :
      Tensor × Nat) = (⟨[0]⟩, 1) := by decide
  have hout : ((UNetModel.init.outputStage ⟨[0]⟩ none ⟨[0]⟩
      [⟨[0]⟩, ⟨[0]⟩, ⟨[0]⟩, ⟨[0]⟩, ⟨[0]⟩, ⟨[0]⟩, ⟨[0]⟩, ⟨[0]⟩, ⟨[0]⟩, ⟨[0]⟩, ⟨[0]⟩, ⟨[]⟩]).run 1 :
      (Tensor × List Tensor) × Nat) = ((⟨[0]⟩, []), 1) := by decide
  have hnorm : ((UNetModel.init.out_norm.call ⟨[0]⟩).run 1 : Tensor × Nat) = (⟨[0]⟩, 1) := by
    decide
  have hconv : UNetModel.init.out_conv.call (Tensor.silu ⟨[0]⟩) = ⟨[0]⟩ := by decide
  simp only [UNetModel.call, StateT.run_bind, idBindEq, hu, hemb, hin, hrev, hmid,
    hout, hnorm, hconv]
  rfl

/-- Second call of the U-Net on the same input, from the sampler state the
first call left behind: the output now depends on draw 1. -/
theorem unet_run1 :
    ((UNetModel.init.call Tensor.empty none).run 1 : Tensor × Nat) = (⟨[1]⟩, 2) := by
  have hu : (Tensor.uniform.run 1 : Tensor × Nat) = (⟨[1]⟩, 2) := rfl
  have hemb : UNetModel.init.time_embed_lin2.call
      ((UNetModel.init.time_embed_lin1.call ⟨[1]⟩).silu) = ⟨[1]⟩ := by decide
  have hin : ((UNetModel.init.inputStage ⟨[1]⟩ none Tensor.empty).run 2 :
      (Tensor × List Tensor) × Nat) = ((⟨[1]⟩, unetSaved1), 2) := by decide
  have hrev : unetSaved1.reverse =
      [⟨[1]⟩, ⟨[1]⟩, ⟨[1]⟩, ⟨[1]⟩, ⟨[1]⟩, ⟨[1]⟩, ⟨[1]⟩, ⟨[1]⟩, ⟨[1]⟩, ⟨[1]⟩, ⟨[1]⟩, ⟨[]⟩] := by
    decide
  have hmid : ((UBlock.runList UNetModel.init.middle_block ⟨[1]⟩ none ⟨[1]⟩).run 2 :
      Tensor × Nat) = (⟨[1]⟩, 2) := by decide
  have hout : ((UNetModel.init.outputStage ⟨[1]⟩ none ⟨[1]⟩
      [⟨[1]⟩, ⟨[1]⟩, ⟨[1]⟩, ⟨[1]⟩, ⟨[1]⟩, ⟨[1]⟩, ⟨[1]⟩, ⟨[1]⟩, ⟨[1]⟩, ⟨[1]⟩, ⟨[1]⟩, ⟨[]⟩]).run 2 :
      (Tensor × List Tensor) × Nat) = ((⟨[1]⟩, []), 2) := by decide
  have hnorm : ((UNetModel.init.out_norm.call ⟨[1]⟩).run 2 : Tensor × Nat) = (⟨[1]⟩, 2) := by
    decide
  have hconv : UNetModel.init.out_conv.call (Tensor.silu ⟨[1]⟩) = ⟨[1]⟩ := by decide
  simp only [UNetModel.call, StateT.run_bind, idBindEq, hu, hemb, hin, hrev, hmid,
    hout, hnorm, hconv]
  rfl
/-- A forward computation that never touches the sampler state: it is a
`pure` value. -/
def IsPure {α : Type} (c : StateM Nat α) : Prop :=
  ∃ y, c = pure y

theorem isPure_bind {α β : Type} (c : StateM Nat α) (f : α → StateM Nat β)
    (hc : IsPure c) (hf : ∀ y, IsPure (f y)) : IsPure (c >>= f) := by
  obtain ⟨y, rfl⟩ := hc
  obtain ⟨z, hz⟩ := hf y
  exact ⟨z, by rw [pure_bind, hz]⟩

theorem isPure_foldlM {α β : Type} (f : β → α → StateM Nat β)
    (hf : ∀ b a, IsPure (f b a)) :
    ∀ (l : List α) (init : β), IsPure (l.foldlM f init) := by
  intro l
  induction l with
  | nil => intro init; exact ⟨init, rfl⟩
  | cons a l' IH =>
    intro init
    rw [List.foldlM_cons]
    exact isPure_bind _ _ (hf init a) IH

/-- The output of a sampler-free computation does not depend on the sampler
state: such a forward pass is deterministic. -/
theorem isPure_run_fst {α : Type} (c : StateM Nat α) (hc : IsPure c)
    (s₁ s₂ : Nat) : (c.run s₁).1 = (c.run s₂).1 := by
  obtain ⟨y, rfl⟩ := hc
  rfl

theorem normalize_isPure (m : Normalize) (x : Tensor) : IsPure (m.call x) :=
  ⟨_, rfl⟩

theorem attnBlock_isPure (m : AttnBlock) (x : Tensor) : IsPure (m.call x) :=
  isPure_bind _ _ (normalize_isPure m.norm x) (fun _ => ⟨_, rfl⟩)

theorem resnetBlock_isPure (m : ResnetBlock) (x : Tensor) : IsPure (m.call x) :=
  isPure_bind _ _ (normalize_isPure m.norm1 x) (fun n1 =>
    isPure_bind _ _ (normalize_isPure m.norm2 (m.conv1.call n1.swish))
      (fun _ => ⟨_, rfl⟩))

theorem mid_isPure (m : Mid) (x : Tensor) : IsPure (m.call x) :=
  isPure_bind _ _ (resnetBlock_isPure m.block_1 x) (fun x1 =>
    isPure_bind _ _ (attnBlock_isPure m.attn_1 x1) (fun x2 =>
      resnetBlock_isPure m.block_2 x2))

theorem upStage_isPure (l : UpStage) (x : Tensor) : IsPure (l.call x) := by
  refine isPure_bind _ _
    (isPure_foldlM _ (fun acc b => resnetBlock_isPure b acc) l.block x) ?_
  intro y
  cases l.upsample with
  | none => exact ⟨_, rfl⟩
  | some c => exact ⟨_, rfl⟩

theorem decoder_isPure (m : Decoder) (x : Tensor) : IsPure (m.call x) :=
  isPure_bind _ _ (mid_isPure m.mid (m.conv_in.call x)) (fun x1 =>
    isPure_bind _ _
      (isPure_foldlM _ (fun acc l => upStage_isPure l acc) m.up.reverse x1)
      (fun x2 =>
        isPure_bind _ _ (normalize_isPure m.norm_out x2) (fun _ => ⟨_, rfl⟩)))

theorem downStage_isPure (l : DownStage) (x : Tensor) : IsPure (l.call x) := by
  refine isPure_bind _ _
    (isPure_foldlM _ (fun acc b => resnetBlock_isPure b acc) l.block x) ?_
  intro y
  cases l.downsample with
  | none => exact ⟨_, rfl⟩
  | some c => exact ⟨_, rfl⟩

theorem encoder_isPure (m : Encoder) (x : Tensor) : IsPure (m.call x) :=
  isPure_bind _ _
    (isPure_foldlM _ (fun acc l => downStage_isPure l acc) m.down
      (m.conv_in.call x))
    (fun x1 =>
      isPure_bind _ _ (mid_isPure m.mid x1) (fun x2 =>
        isPure_bind _ _ (normalize_isPure m.norm_out x2) (fun _ => ⟨_, rfl⟩)))

theorem autoencoderKL_isPure (m : AutoencoderKL) (x : Tensor) : IsPure (m.call x) :=
  isPure_bind _ _ (encoder_isPure m.encoder x) (fun l1 =>
    decoder_isPure m.decoder _)

theorem resBlock_isPure (m : ResBlock) (x emb : Tensor) : IsPure (m.call x emb) :=
  isPure_bind _ _ (normalize_isPure m.in_norm x) (fun n1 =>
    isPure_bind _ _ (normalize_isPure m.out_norm _) (fun _ => ⟨_, rfl⟩))

theorem crossAttention_isPure (m : CrossAttention) (x : Tensor)
    (context : Option Tensor) : IsPure (m.call x context) :=
  ⟨_, rfl⟩

theorem basicTransformerBlock_isPure (m : BasicTransformerBlock) (x : Tensor)
    (context : Option Tensor) : IsPure (m.call x context) :=
  isPure_bind _ _ (normalize_isPure m.norm1 x) (fun n1 =>
    isPure_bind _ _ (crossAttention_isPure m.attn1 n1 none) (fun a1 =>
      isPure_bind _ _ (normalize_isPure m.norm2 _) (fun n2 =>
        isPure_bind _ _ (crossAttention_isPure m.attn2 n2 context) (fun a2 =>
          isPure_bind _ _ (normalize_isPure m.norm3 _) (fun _ => ⟨_, rfl⟩)))))

theorem spatialTransformer_isPure (m : SpatialTransformer) (x : Tensor)
    (context : Option Tensor) : IsPure (m.call x context) :=
  isPure_bind _ _ (normalize_isPure m.norm x) (fun x1 =>
    isPure_bind _ _
      (isPure_foldlM _ (fun acc b => basicTransformerBlock_isPure b acc context)
        m.transformer_blocks _)
      (fun _ => ⟨_, rfl⟩))

theorem clipMLP_isPure (m : CLIPMLP) (x : Tensor) : IsPure (m.call x) :=
  ⟨_, rfl⟩

theorem clipAttention_isPure (m : CLIPAttention) (x : Tensor) : IsPure (m.call x) :=
  ⟨_, rfl⟩

theorem clipEncoderLayer_isPure (m : CLIPEncoderLayer) (x : Tensor) :
    IsPure (m.call x) :=
  isPure_bind _ _ (normalize_isPure m.layer_norm1 x) (fun h1 =>
    isPure_bind _ _ (clipAttention_isPure m.self_attn h1) (fun h2 =>
      isPure_bind _ _ (normalize_isPure m.layer_norm2 _) (fun h3 =>
        isPure_bind _ _ (clipMLP_isPure m.mlp h3) (fun _ => ⟨_, rfl⟩))))

theorem clipEncoder_isPure (m : CLIPEncoder) (x : Tensor) : IsPure (m.call x) :=
  isPure_foldlM _ (fun acc l => clipEncoderLayer_isPure l acc) m.layers x

theorem clipTextEmbeddings_isPure (m : CLIPTextEmbeddings)
    (input_ids position_ids : List Nat) :
    IsPure (m.call input_ids position_ids) :=
  ⟨_, rfl⟩

theorem clipTextTransformer_isPure (m : CLIPTextTransformer)
    (input_ids : List Nat) : IsPure (m.call input_ids) :=
  isPure_bind _ _
    (clipTextEmbeddings_isPure m.embeddings input_ids
      (List.range input_ids.length))
    (fun x1 =>
      isPure_bind _ _ (clipEncoder_isPure m.encoder x1) (fun x2 =>
        normalize_isPure m.final_layer_norm x2))
/-- Every leaf of the tree after a completed pass either still holds its
original array or holds a value written by the pass, and every written value
is a float32 cast. -/
theorem bindAll_leaves (es : List (String × NpArr)) (t' : Node) :
    ∀ (t : Node) (log : List LogLine), bindAll t es = .ok t' log →
      ∀ a ∈ allLeaves t', a ∈ allLeaves t ∨ a.dtype = .float32 := by
  induction es with
  | nil =>
    intro t log hrun a ha
    simp only [bindAll, BindOutcome.ok.injEq] at hrun
    rw [← hrun.1] at ha
    exact Or.inl ha
  | cons ekv es' IH =>
    obtain ⟨k, v⟩ := ekv
    intro t log hrun a ha
    rw [bindAll_cons] at hrun
    cases hpk : parsePath k with
    | none => rw [hpk] at hrun; exact absurd hrun (by simp)
    | some q =>
      rw [hpk] at hrun
      simp only at hrun
      cases hr : resolve t q with
      | error e2 =>
        rw [hr] at hrun
        simp only at hrun
        obtain ⟨log', h1, _⟩ := withLog_ok_inv hrun
        exact IH t log' h1 a ha
      | ok w₀ =>
        rw [hr] at hrun
        simp only at hrun
        by_cases hsh : w₀.shape = v.shape
        · rw [if_pos hsh] at hrun
          obtain ⟨log', h1, _⟩ := withLog_ok_inv hrun
          rcases IH _ log' h1 a ha with h | h
          · rcases mem_allLeaves_update q t (v.astype .float32) a h with h2 | h2
            · exact Or.inr (by rw [h2]; rfl)
            · exact Or.inl h2
          · exact Or.inr h
        · rw [if_neg hsh] at hrun; exact absurd hrun (by simp)

/-- Shorthand for a name segment. -/
def nm (s : String) : Seg :=
  .name s

/-- Parameter-tree leaf for an uninitialized tensor of the given shape
(`Tensor.empty` under `Tensor.no_init`, default dtype float32). -/
def leafN (shape : List Nat) : Node :=
  .leaf ⟨shape, [], .float32⟩

/-- Parameter subtree of a `Linear(in_features, out_features)` layer. -/
def linearTree (out_features in_features : Nat) : Node :=
  .comp (Children.ofList
    [(nm "weight", leafN [out_features, in_features]),
     (nm "bias", leafN [out_features])])

/-- Parameter subtree of a `Normalize(c)` layer (the `num_groups` integer is
not a tensor parameter and is not addressable by checkpoint keys). -/
def normTree (c : Nat) : Node :=
  .comp (Children.ofList
    [(nm "weight", leafN [c]), (nm "bias", leafN [c])])

/-- Parameter subtree of `CLIPAttention` (scalar attributes omitted). -/
def clipAttentionTree : Node :=
  .comp (Children.ofList
    [(nm "k_proj", linearTree 768 768), (nm "v_proj", linearTree 768 768),
     (nm "q_proj", linearTree 768 768), (nm "out_proj", linearTree 768 768)])

/-- Parameter subtree of `CLIPMLP`. -/
def clipMLPTree : Node :=
  .comp (Children.ofList
    [(nm "fc1", linearTree 3072 768), (nm "fc2", linearTree 768 3072)])

/-- Parameter subtree of `CLIPEncoderLayer`. -/
def clipEncoderLayerTree : Node :=
  .comp (Children.ofList
    [(nm "self_attn", clipAttentionTree), (nm "layer_norm1", normTree 768),
     (nm "mlp", clipMLPTree), (nm "layer_norm2", normTree 768)])

/-- Parameter subtree of `CLIPEncoder`: twelve indexed layers. -/
def clipEncoderTree : Node :=
  .comp (Children.ofList
    [(nm "layers", .comp (Children.ofList
      ((List.range 12).map fun i => (Seg.idx i, clipEncoderLayerTree))))])

/-- Parameter subtree of `CLIPTextEmbeddings`: the two embedding matrices are
dict-valued attributes holding a `weight` entry. -/
def clipTextEmbeddingsTree : Node :=
  .comp (Children.ofList
    [(nm "position_ids", leafN [1, 77]),
     (nm "token_embedding", .comp (Children.ofList [(nm "weight", leafN [49408, 768])])),
     (nm "position_embedding", .comp (Children.ofList [(nm "weight", leafN [77, 768])]))])

/-- Parameter subtree of `CLIPTextTransformer`. -/
def clipTextTransformerTree : Node :=
  .comp (Children.ofList
    [(nm "embeddings", clipTextEmbeddingsTree),
     (nm "encoder", clipEncoderTree),
     (nm "final_layer_norm", normTree 768)])

/-- The parameter tree of the `StableDiffusion()` instance built by the entry
point (source line 506): only the text-encoder branch
`cond_stage_model.transformer.text_model` exists; the `model` and
`first_stage_model` attributes are never assigned (source lines 472-473 are
commented out). -/
def sdTree : Node :=
  .comp (Children.ofList
    [(nm "cond_stage_model", .comp (Children.ofList
      [(nm "transformer", .comp (Children.ofList
        [(nm "text_model", clipTextTransformerTree)]))]))])
/-- Example model tree (spec §8's example, one convolution weight leaf of
shape 4x3x3x3). -/
def exTree : Node :=
  .comp (Children.ofList
    [(nm "conv1", .comp (Children.ofList [(nm "weight", leafN [4, 3, 3, 3])]))])

/-- Example checkpoint tensor of matching shape, float16 payload. -/
def exArrV : NpArr :=
  ⟨[4, 3, 3, 3], [5, 6, 7], .float16⟩

/-- The example tree after binding `exArrV` at `conv1.weight`. -/
def exTreeBound : Node :=
  .comp (Children.ofList
    [(nm "conv1", .comp (Children.ofList
      [(nm "weight", .leaf ⟨[4, 3, 3, 3], [5, 6, 7], .float32⟩)]))])

/-- Example one-entry checkpoint. -/
def exCkpt : List (String × NpArr) :=
  [("conv1.weight", exArrV)]

/-- The per-key log line printed while binding `exCkpt` onto `exTree`. -/
def exLog : List LogLine :=
  [.perKey [4, 3, 3, 3] (some ⟨[4, 3, 3, 3], [], .float32⟩) "conv1.weight"]

/-- C1: for every checkpoint entry whose path resolves to a model-tree leaf of
matching shape (and whose path is not re-bound by a later entry), after the
binding pass that leaf's contents equal the checkpoint tensor's contents, the
only transformation being the float32 cast of `w.assign(v.astype(np.float32))`
(source line 519): same shape, same payload, dtype float32. -/
theorem claim1_bound_leaf_gets_checkpoint_contents
    (t : Node) (pre post : List (String × NpArr)) (k : String) (v w : NpArr)
    (p : List Seg) (t' : Node) (log : List LogLine)
    (hk : parsePath k = some p)
    (hw : resolve t p = .ok w)
    (hsh : w.shape = v.shape)
    (hpost : ∀ e ∈ post, parsePath e.1 ≠ some p)
    (hrun : bindAll t (pre ++ (k, v) :: post) = .ok t' log) :
    resolve t' p = .ok { shape := v.shape, data := v.data, dtype := Dtype.float32 } := by
  rw [bindAll_append] at hrun
  cases hb1 : bindAll t pre with
  | fatal f u l =>
    rw [hb1] at hrun
    exact absurd hrun (by simp [BindOutcome.andThen])
  | ok t₁ log₁ =>
    rw [hb1] at hrun
    have hrun' : (bindAll t₁ ((k, v) :: post)).withLog log₁ = .ok t' log := hrun
    obtain ⟨log₂, h2, _⟩ := withLog_ok_inv hrun'
    obtain ⟨w₁, hw₁, hsh₁⟩ := bindAll_resolve_shape pre p t₁ t log₁ w hb1 hw
    rw [bindAll_cons, hk] at h2
    simp only at h2
    rw [hw₁] at h2
    simp only at h2
    rw [if_pos (by rw [hsh₁, hsh])] at h2
    obtain ⟨log₃, h3, _⟩ := withLog_ok_inv h2
    have hmid : resolve (update t₁ p (v.astype .float32)) p =
        .ok (v.astype .float32) := by
      rw [resolve_update (v.astype .float32) p t₁ w₁ hw₁ p, if_pos rfl]
    rw [bindAll_untouched post p t' hpost _ log₃ h3, hmid]
    rfl

/-- Witness for C1 on the spec §8 example: after binding, the leaf holds the
checkpoint payload with only the dtype changed to float32. -/
theorem claim1_witness :
    resolve exTreeBound [nm "conv1", nm "weight"] =
      .ok { shape := [4, 3, 3, 3], data := [5, 6, 7], dtype := Dtype.float32 } :=
  claim1_bound_leaf_gets_checkpoint_contents exTree [] [] "conv1.weight" exArrV
    ⟨[4, 3, 3, 3], [], .float32⟩ [nm "conv1", nm "weight"] exTreeBound exLog
    rfl rfl rfl (by intro e he; exact absurd he (List.not_mem_nil e)) rfl

/-- C2: a checkpoint entry that resolves to a leaf of a different shape makes
the pass abort with a hard shape-mismatch failure naming the key and both
shapes (the uncaught `assert w.shape == v.shape` of source line 518); nothing
is assigned for that entry, so no reshape or broadcast ever happens. -/
theorem claim2_shape_mismatch_aborts
    (t : Node) (pre post : List (String × NpArr)) (k : String) (v w : NpArr)
    (p : List Seg) (t₁ : Node) (log₁ : List LogLine)
    (hpre : bindAll t pre = .ok t₁ log₁)
    (hk : parsePath k = some p)
    (hw : resolve t p = .ok w)
    (hne : w.shape ≠ v.shape) :
    ∃ w₁, resolve t₁ p = .ok w₁ ∧ w₁.shape = w.shape ∧
      bindAll t (pre ++ (k, v) :: post) =
        .fatal (.shapeMismatch k w.shape v.shape) t₁
          (log₁ ++ [.perKey v.shape (some w₁) k]) := by
  obtain ⟨w₁, hw₁, hsh₁⟩ := bindAll_resolve_shape pre p t₁ t log₁ w hpre hw
  refine ⟨w₁, hw₁, hsh₁, ?_⟩
  rw [bindAll_append, hpre]
  show (bindAll t₁ ((k, v) :: post)).withLog log₁ = _
  rw [bindAll_cons, hk]
  simp only
  rw [hw₁]
  simp only
  rw [if_neg (by rw [hsh₁]; exact hne), hsh₁]
  rfl

/-- Witness for C2: a checkpoint tensor of shape 8x3x3x3 against the 4x3x3x3
leaf aborts the pass with the mismatch recorded. -/
theorem claim2_witness :
    ∃ w₁, resolve exTree [nm "conv1", nm "weight"] = .ok w₁ ∧
      w₁.shape = (⟨[4, 3, 3, 3], [], .float32⟩ : NpArr).shape ∧
      bindAll exTree [("conv1.weight", ⟨[8, 3, 3, 3], [9], .float16⟩)] =
        .fatal (.shapeMismatch "conv1.weight" [4, 3, 3, 3] [8, 3, 3, 3]) exTree
          ([] ++ [.perKey [8, 3, 3, 3] (some w₁) "conv1.weight"]) :=
  claim2_shape_mismatch_aborts exTree [] [] "conv1.weight"
    ⟨[8, 3, 3, 3], [9], .float16⟩ ⟨[4, 3, 3, 3], [], .float32⟩
    [nm "conv1", nm "weight"] exTree [] rfl rfl rfl (by decide)

/-- C3: a checkpoint entry whose path does not resolve is skipped without
raising (the `except AttributeError/KeyError/IndexError` of source line 513
turns resolution failure into `w = None`): it contributes exactly one
skipped-key log line, and the rest of the pass runs exactly as it would have
run without the entry. -/
theorem claim3_unresolvable_key_skipped
    (t : Node) (pre post : List (String × NpArr)) (k : String) (v : NpArr)
    (p : List Seg) (e : RErr) (t₁ : Node) (log₁ : List LogLine)
    (hk : parsePath k = some p)
    (he : resolve t p = .error e)
    (hpre : bindAll t pre = .ok t₁ log₁) :
    bindAll t (pre ++ (k, v) :: post) =
        (bindAll t₁ post).withLog (log₁ ++ [.perKey v.shape none k]) ∧
      bindAll t (pre ++ post) = (bindAll t₁ post).withLog log₁ := by
  constructor
  · rw [bindAll_append, hpre]
    show (bindAll t₁ ((k, v) :: post)).withLog log₁ = _
    rw [bindAll_cons, hk]
    simp only
    rw [bindAll_resolve_error pre p e t₁ t log₁ hpre he]
    simp only
    rw [withLog_withLog]
  · rw [bindAll_append, hpre]
    rfl

/-- Witness for C3: a key for an absent decoder branch is skipped and the
remaining (empty) pass is unaffected. -/
theorem claim3_witness :
    bindAll exTree [("decoder.block_9.nonexistent", ⟨[1], [3], .float16⟩)] =
        (bindAll exTree []).withLog
          ([] ++ [.perKey [1] none "decoder.block_9.nonexistent"]) ∧
      bindAll exTree ([] ++ []) = (bindAll exTree []).withLog [] :=
  claim3_unresolvable_key_skipped exTree [] [] "decoder.block_9.nonexistent"
    ⟨[1], [3], .float16⟩ [nm "decoder", nm "block_9", nm "nonexistent"]
    RErr.notFound exTree [] rfl rfl rfl

/-- C4: when the pass aborts on a shape-mismatch entry, the tree it leaves
behind is exactly the tree produced by the entries before the fatal one: no
leaf bound after that point in iteration order is ever written (fail-fast,
source lines 510-519 run strictly in order and the assertion stops the
loop). -/
theorem claim4_fatal_preserves_later_leaves
    (t : Node) (pre post : List (String × NpArr)) (k : String) (v w : NpArr)
    (p : List Seg) (t₁ : Node) (log₁ : List LogLine)
    (hpre : bindAll t pre = .ok t₁ log₁)
    (hk : parsePath k = some p)
    (hw : resolve t p = .ok w)
    (hne : w.shape ≠ v.shape) :
    ∃ f log₂, bindAll t (pre ++ (k, v) :: post) = .fatal f t₁ log₂ := by
  obtain ⟨w₁, hw₁, hsh₁⟩ := bindAll_resolve_shape pre p t₁ t log₁ w hpre hw
  refine ⟨.shapeMismatch k w₁.shape v.shape,
    log₁ ++ [.perKey v.shape (some w₁) k], ?_⟩
  rw [bindAll_append, hpre]
  show (bindAll t₁ ((k, v) :: post)).withLog log₁ = _
  rw [bindAll_cons, hk]
  simp only
  rw [hw₁]
  simp only
  rw [if_neg (by rw [hsh₁]; exact hne)]
  rfl

/-- Witness for C4: the abort on the mismatched entry leaves the example tree
exactly as it was (the fatal entry and everything after it unwritten). -/
theorem claim4_witness :
    ∃ f log₂,
      bindAll exTree
        [("conv1.weight", ⟨[8, 3, 3, 3], [9], .float16⟩),
         ("conv1.weight", ⟨[4, 3, 3, 3], [1], .float16⟩)] =
        .fatal f exTree log₂ :=
  claim4_fatal_preserves_later_leaves exTree []
    [("conv1.weight", ⟨[4, 3, 3, 3], [1], .float16⟩)] "conv1.weight"
    ⟨[8, 3, 3, 3], [9], .float16⟩ ⟨[4, 3, 3, 3], [], .float32⟩
    [nm "conv1", nm "weight"] exTree [] rfl rfl rfl (by decide)
/-- C5: binding is idempotent.  For a checkpoint mapping (keys parse to
pairwise distinct paths), re-running a completed binding pass from its own
final tree completes and produces exactly the same final leaf contents: every
resolving entry re-asserts the same shape (assignment preserved it) and
re-writes the same float32-cast value. -/
theorem claim5_binding_idempotent
    (es : List (String × NpArr)) (t t' : Node) (log : List LogLine)
    (hnd : (es.map (fun e => parsePath e.1)).Nodup)
    (hrun : bindAll t es = .ok t' log) :
    ∃ log₂, bindAll t' es = .ok t' log₂ :=
  bindAll_idem es hnd t t' log hrun

/-- Witness for C5: re-binding the example checkpoint onto the already-bound
example tree leaves it unchanged. -/
theorem claim5_witness :
    ∃ log₂, bindAll exTreeBound exCkpt = .ok exTreeBound log₂ :=
  claim5_binding_idempotent exCkpt exTree exTreeBound exLog (by decide) rfl

/-- C6 counterexample: on the spec §8 example input, the binding pass's whole
user-visible output is the single per-key line of source line 516; it
contains no summary report of bound/skipped counts, contradicting the claimed
summary. -/
theorem claim6_counterexample :
    ((bindAll exTree exCkpt).logOf.all fun l => !l.isSummary) = true ∧
      (bindAll exTree exCkpt).logOf.length = 1 := by
  decide

/-- C6 (amended): the user-visible output of a completed pass is exactly one
per-key line per checkpoint entry (checkpoint tensor shape, resolved leaf or
`None`, key); no aggregate summary of bound/skipped counts is ever printed. -/
theorem claim6_per_key_log_only
    (es : List (String × NpArr)) (t t' : Node) (log : List LogLine)
    (hrun : bindAll t es = .ok t' log) :
    log.length = es.length ∧ ∀ l ∈ log, l.isSummary = false :=
  bindAll_log es t' t log hrun

/-- Witness for the amended C6 on the example pass. -/
theorem claim6_witness :
    exLog.length = exCkpt.length ∧ ∀ l ∈ exLog, l.isSummary = false :=
  claim6_per_key_log_only exCkpt exTree exTreeBound exLog rfl

/-- C7: a checkpoint key violating the segment grammar is rejected as a fatal
malformed-path error before any navigation of the model tree: the pass stops
at that entry with the tree and log of the prefix (the modelled resolver,
spec §4.1 and §7, validates the grammar before navigating; its failure is not
one of the three exception classes the loop catches). -/
theorem claim7_malformed_path_fatal
    (t : Node) (pre post : List (String × NpArr)) (k : String) (v : NpArr)
    (t₁ : Node) (log₁ : List LogLine)
    (hpre : bindAll t pre = .ok t₁ log₁)
    (hk : parsePath k = none) :
    bindAll t (pre ++ (k, v) :: post) = .fatal (.malformedPath k) t₁ log₁ := by
  rw [bindAll_append, hpre]
  show (bindAll t₁ ((k, v) :: post)).withLog log₁ = _
  rw [bindAll_cons, hk]
  simp only [BindOutcome.withLog, List.append_nil]

/-- Witness for C7: a key with an illegal character in a segment aborts the
pass before navigation. -/
theorem claim7_witness :
    bindAll exTree [("conv1.bad-seg", ⟨[1], [], .float16⟩)] =
      .fatal (.malformedPath "conv1.bad-seg") exTree [] :=
  claim7_malformed_path_fatal exTree [] [] "conv1.bad-seg" ⟨[1], [], .float16⟩
    exTree [] rfl rfl
/-- C8 counterexample: `UNetModel.__call__` is not deterministic.  With fixed
parameters (`UNetModel.init`) and a fixed input, calling it twice in
succession (the second call starting from the sampler state the first one
left) yields different outputs: each call draws a fresh placeholder time
embedding (`t_emb = Tensor.uniform(...)`, source line 343) that flows into
every residual block and on into the output. -/
theorem claim8_counterexample :
    ¬ (((UNetModel.init.call Tensor.empty none).run 0 : Tensor × Nat).1 =
      ((UNetModel.init.call Tensor.empty none).run
        (((UNetModel.init.call Tensor.empty none).run 0 : Tensor × Nat).2) :
        Tensor × Nat).1) := by
  simp only [unet_run0]
  simp only [unet_run1]
  decide

/-- C8 (amended): every named submodule's forward transformation other than
`UNetModel.__call__` is deterministic: with parameters and input fixed, the
output does not depend on the sampler state, so two calls on the same input
agree.  (`StableDiffusion.__call__` deterministically raises the same
attribute-lookup error on every call before its sampled context is ever used;
the remaining layers — `Linear`, `GEGLU`, `FeedForward`, `Downsample`,
`Upsample` and the external `Conv2d` — are sampler-free functions by
construction in this model.) -/
theorem claim8_submodules_deterministic
    : (∀ (m : Normalize) (x : Tensor) (s₁ s₂ : Nat),
        ((m.call x).run s₁ : Tensor × Nat).1 = ((m.call x).run s₂ : Tensor × Nat).1) ∧
      (∀ (m : AttnBlock) (x : Tensor) (s₁ s₂ : Nat),
        ((m.call x).run s₁ : Tensor × Nat).1 = ((m.call x).run s₂ : Tensor × Nat).1) ∧
      (∀ (m : ResnetBlock) (x : Tensor) (s₁ s₂ : Nat),
        ((m.call x).run s₁ : Tensor × Nat).1 = ((m.call x).run s₂ : Tensor × Nat).1) ∧
      (∀ (m : Mid) (x : Tensor) (s₁ s₂ : Nat),
        ((m.call x).run s₁ : Tensor × Nat).1 = ((m.call x).run s₂ : Tensor × Nat).1) ∧
      (∀ (m : Decoder) (x : Tensor) (s₁ s₂ : Nat),
        ((m.call x).run s₁ : Tensor × Nat).1 = ((m.call x).run s₂ : Tensor × Nat).1) ∧
      (∀ (m : Encoder) (x : Tensor) (s₁ s₂ : Nat),
        ((m.call x).run s₁ : Tensor × Nat).1 = ((m.call x).run s₂ : Tensor × Nat).1) ∧
      (∀ (m : AutoencoderKL) (x : Tensor) (s₁ s₂ : Nat),
        ((m.call x).run s₁ : Tensor × Nat).1 = ((m.call x).run s₂ : Tensor × Nat).1) ∧
      (∀ (m : ResBlock) (x emb : Tensor) (s₁ s₂ : Nat),
        ((m.call x emb).run s₁ : Tensor × Nat).1 = ((m.call x emb).run s₂ : Tensor × Nat).1) ∧
      (∀ (m : CrossAttention) (x : Tensor) (c : Option Tensor) (s₁ s₂ : Nat),
        ((m.call x c).run s₁ : Tensor × Nat).1 = ((m.call x c).run s₂ : Tensor × Nat).1) ∧
      (∀ (m : BasicTransformerBlock) (x : Tensor) (c : Option Tensor) (s₁ s₂ : Nat),
        ((m.call x c).run s₁ : Tensor × Nat).1 = ((m.call x c).run s₂ : Tensor × Nat).1) ∧
      (∀ (m : SpatialTransformer) (x : Tensor) (c : Option Tensor) (s₁ s₂ : Nat),
        ((m.call x c).run s₁ : Tensor × Nat).1 = ((m.call x c).run s₂ : Tensor × Nat).1) ∧
      (∀ (m : CLIPMLP) (x : Tensor) (s₁ s₂ : Nat),
        ((m.call x).run s₁ : Tensor × Nat).1 = ((m.call x).run s₂ : Tensor × Nat).1) ∧
      (∀ (m : CLIPAttention) (x : Tensor) (s₁ s₂ : Nat),
        ((m.call x).run s₁ : Tensor × Nat).1 = ((m.call x).run s₂ : Tensor × Nat).1) ∧
      (∀ (m : CLIPEncoderLayer) (x : Tensor) (s₁ s₂ : Nat),
        ((m.call x).run s₁ : Tensor × Nat).1 = ((m.call x).run s₂ : Tensor × Nat).1) ∧
      (∀ (m : CLIPEncoder) (x : Tensor) (s₁ s₂ : Nat),
        ((m.call x).run s₁ : Tensor × Nat).1 = ((m.call x).run s₂ : Tensor × Nat).1) ∧
      (∀ (m : CLIPTextEmbeddings) (ids pos : List Nat) (s₁ s₂ : Nat),
        ((m.call ids pos).run s₁ : Tensor × Nat).1 = ((m.call ids pos).run s₂ : Tensor × Nat).1) ∧
      (∀ (m : CLIPTextTransformer) (ids : List Nat) (s₁ s₂ : Nat),
        ((m.call ids).run s₁ : Tensor × Nat).1 = ((m.call ids).run s₂ : Tensor × Nat).1) ∧
      (∀ (m : StableDiffusion) (x : Tensor) (s₁ s₂ : Nat),
        ((m.call x).run s₁ : Except PyErr Tensor × Nat).1 =
          ((m.call x).run s₂ : Except PyErr Tensor × Nat).1) :=
  ⟨fun m x s₁ s₂ => isPure_run_fst _ (normalize_isPure m x) s₁ s₂,
   fun m x s₁ s₂ => isPure_run_fst _ (attnBlock_isPure m x) s₁ s₂,
   fun m x s₁ s₂ => isPure_run_fst _ (resnetBlock_isPure m x) s₁ s₂,
   fun m x s₁ s₂ => isPure_run_fst _ (mid_isPure m x) s₁ s₂,
   fun m x s₁ s₂ => isPure_run_fst _ (decoder_isPure m x) s₁ s₂,
   fun m x s₁ s₂ => isPure_run_fst _ (encoder_isPure m x) s₁ s₂,
   fun m x s₁ s₂ => isPure_run_fst _ (autoencoderKL_isPure m x) s₁ s₂,
   fun m x emb s₁ s₂ => isPure_run_fst _ (resBlock_isPure m x emb) s₁ s₂,
   fun m x c s₁ s₂ => isPure_run_fst _ (crossAttention_isPure m x c) s₁ s₂,
   fun m x c s₁ s₂ => isPure_run_fst _ (basicTransformerBlock_isPure m x c) s₁ s₂,
   fun m x c s₁ s₂ => isPure_run_fst _ (spatialTransformer_isPure m x c) s₁ s₂,
   fun m x s₁ s₂ => isPure_run_fst _ (clipMLP_isPure m x) s₁ s₂,
   fun m x s₁ s₂ => isPure_run_fst _ (clipAttention_isPure m x) s₁ s₂,
   fun m x s₁ s₂ => isPure_run_fst _ (clipEncoderLayer_isPure m x) s₁ s₂,
   fun m x s₁ s₂ => isPure_run_fst _ (clipEncoder_isPure m x) s₁ s₂,
   fun m ids pos s₁ s₂ => isPure_run_fst _ (clipTextEmbeddings_isPure m ids pos) s₁ s₂,
   fun m ids s₁ s₂ => isPure_run_fst _ (clipTextTransformer_isPure m ids) s₁ s₂,
   fun m x s₁ s₂ => rfl⟩

/-- C9: every value the binding pass assigns into a leaf is the float32 cast
of the checkpoint tensor, whatever the checkpoint dtype was: after a
completed pass, every leaf either still holds its original (unbound) array or
holds a float32 array. -/
theorem claim9_bound_leaves_float32
    (es : List (String × NpArr)) (t t' : Node) (log : List LogLine)
    (hrun : bindAll t es = .ok t' log) :
    ∀ a ∈ allLeaves t', a ∈ allLeaves t ∨ a.dtype = .float32 :=
  bindAll_leaves es t' t log hrun

/-- Witness for C9: the bound leaf of the example pass holds float32 data
even though the checkpoint entry was float16. -/
theorem claim9_witness :
    (⟨[4, 3, 3, 3], [5, 6, 7], Dtype.float32⟩ : NpArr) ∈ allLeaves exTree ∨
      (⟨[4, 3, 3, 3], [5, 6, 7], Dtype.float32⟩ : NpArr).dtype = .float32 :=
  claim9_bound_leaves_float32 exCkpt exTree exTreeBound exLog rfl
    ⟨[4, 3, 3, 3], [5, 6, 7], Dtype.float32⟩ (by decide)

/-- C10: the `StableDiffusion` constructor instantiates only the text-encoder
branch (`cond_stage_model`, source line 474); `model` and
`first_stage_model` are never assigned (source lines 472-473).  Consequently
(i) every call of `StableDiffusion.__call__` samples its context and then
fails the `self.model` attribute lookup, and (ii) during binding every
checkpoint key under `model.` or `first_stage_model.` fails resolution at the
root and is skipped rather than bound. -/
theorem claim10_missing_model_branch
    : (∀ (x : Tensor) (s : Nat),
        ((StableDiffusion.init.call x).run s : Except PyErr Tensor × Nat) =
          (.error (.attributeError "model"), s + 1)) ∧
      (∀ rest : List Seg,
        resolve sdTree (Seg.name "model" :: rest) = .error .notFound) ∧
      (∀ rest : List Seg,
        resolve sdTree (Seg.name "first_stage_model" :: rest) = .error .notFound) ∧
      (∀ (k : String) (v : NpArr) (rest : List Seg),
        (parsePath k = some (Seg.name "model" :: rest) ∨
          parsePath k = some (Seg.name "first_stage_model" :: rest)) →
        bindAll sdTree [(k, v)] = .ok sdTree [.perKey v.shape none k]) := by
  refine ⟨fun x s => rfl, fun rest => rfl, fun rest => rfl, ?_⟩
  intro k v rest h
  rcases h with h | h
  · rw [bindAll_cons, h]
    simp only
    rw [show resolve sdTree (Seg.name "model" :: rest) = .error .notFound from rfl]
    rfl
  · rw [bindAll_cons, h]
    simp only
    rw [show resolve sdTree (Seg.name "first_stage_model" :: rest) =
      .error .notFound from rfl]
    rfl

/-- Witness for C10: a U-Net weight key of the checkpoint is skipped by the
binder (tree unchanged, logged with `None`). -/
theorem claim10_witness :
    bindAll sdTree [("model.diffusion_model.input_blocks.0.0.weight",
        ⟨[320, 4, 3, 3], [], .float16⟩)] =
      .ok sdTree [.perKey [320, 4, 3, 3] none
        "model.diffusion_model.input_blocks.0.0.weight"] :=
  claim10_missing_model_branch.2.2.2
    "model.diffusion_model.input_blocks.0.0.weight" ⟨[320, 4, 3, 3], [], .float16⟩
    [nm "diffusion_model", nm "input_blocks", .idx 0, .idx 0, nm "weight"]
    (Or.inl rfl)

end TinySD
